import Mathlib

set_option maxHeartbeats 1000000

namespace TraceFinder

/-!
Shallow embedding of the TraceFinder forensic triage tool (Python).

Points in time are modelled as integers counting microseconds since the Unix
epoch 1970-01-01T00:00:00Z — the resolution of Python `datetime` — matching
the tool's normalization of every timestamp to UTC.  Python float arithmetic
appearing in the source (`int / int` true division, which CPython computes as
the correctly rounded IEEE-754 binary64 quotient, and the documented
round-half-to-even conversion of fractional seconds to whole microseconds in
`timedelta` / `fromtimestamp`) is modelled exactly over the integers:
`divDouble a b` yields the mantissa/exponent pair of the correctly rounded
binary64 value of `a / b`, and `usOfDoubleSeconds` turns that float, read as
seconds, into whole microseconds with round-half-to-even.
-/

/-- Microseconds from 1970-01-01T00:00:00Z back to 1601-01-01T00:00:00Z
(negative: the FILETIME / Chrome epoch lies before the Unix epoch). -/
def EPOCH_1601_US : ℤ := -11644473600000000

/-- Python `datetime.min` (0001-01-01T00:00:00) as microseconds since 1970. -/
def DATETIME_MIN_US : ℤ := -62135596800000000

/-- Python `datetime.max` (9999-12-31T23:59:59.999999) as microseconds since 1970. -/
def DATETIME_MAX_US : ℤ := 253402300799999999

/-- Whether a microsecond count lies in the representable range of Python
`datetime`; an arithmetic result outside it raises `OverflowError` there. -/
def inDatetimeRange (us : ℤ) : Bool :=
  decide (DATETIME_MIN_US ≤ us) && decide (us ≤ DATETIME_MAX_US)

/-- Round `a / b` (with `b > 0`) to the nearest integer, ties to the even
integer — the rounding of IEEE-754 binary arithmetic and of Python's
fractional-microsecond handling. -/
def rheDiv (a b : ℤ) : ℤ :=
  let q := a / b
  let r := a % b
  if 2 * r < b then q else if b < 2 * r then q + 1 else if q % 2 = 0 then q else q + 1

/-- Fuel-driven floor of the base-2 logarithm, written by structural recursion
so that the kernel can evaluate it inside `decide`. -/
def log2fuel : ℕ → ℕ → ℕ
  | 0, _ => 0
  | fuel + 1, n => if n ≤ 1 then 0 else log2fuel fuel (n / 2) + 1

/-- Floor of the base-2 logarithm of a positive natural number. -/
def nlog2 (n : ℕ) : ℕ := log2fuel n n

/-- Decide `a / b < 2 ^ e` (for `b > 0`) by cross-multiplication, keeping all
arithmetic over ℤ. -/
def zpow2lt (a b : ℤ) (e : ℤ) : Bool :=
  if 0 ≤ e then decide (a < b * 2 ^ e.toNat) else decide (a * 2 ^ (-e).toNat < b)

/-- Binade of the positive quotient `a / b`: the exponent `e` with
`2^e ≤ a/b < 2^(e+1)`. -/
def binadeDiv (a b : ℤ) : ℤ :=
  let e1 : ℤ := (nlog2 a.toNat : ℤ) - (nlog2 b.toNat : ℤ)
  if zpow2lt a b e1 then e1 - 1 else e1

/-- Correctly rounded binary64 value of `a / b` for `a, b > 0`, returned as a
mantissa/exponent pair `(m, ex)` denoting `m * 2 ^ ex`: the quotient is scaled
into the binade `[2^52, 2^53]` and rounded half to even.  The binary64
exponent range never binds at the magnitudes appearing in this program. -/
def divDoublePos (a b : ℤ) : ℤ × ℤ :=
  let e := binadeDiv a b
  let s := 52 - e
  let m := if 0 ≤ s then rheDiv (a * 2 ^ s.toNat) b else rheDiv a (b * 2 ^ (-s).toNat)
  (m, e - 52)

/-- Correctly rounded binary64 value of `a / b` for `b > 0` and any `a`, as a
mantissa/exponent pair; this is the result of CPython `int / int` true
division. -/
def divDouble (a b : ℤ) : ℤ × ℤ :=
  if a = 0 then (0, 0)
  else if a < 0 then
    let p := divDoublePos (-a) b
    (-p.1, p.2)
  else divDoublePos a b

/-- Read a binary64 mantissa/exponent pair as a count of seconds and convert
it to whole microseconds, rounding half to even — the documented behaviour of
`timedelta(seconds=f)` and `fromtimestamp(f)` for a float `f`. -/
def usOfDoubleSeconds (me : ℤ × ℤ) : ℤ :=
  if 0 ≤ me.2 then me.1 * 1000000 * 2 ^ me.2.toNat
  else rheDiv (me.1 * 1000000) (2 ^ (-me.2).toNat)

/-- Model of `core/time_window.py::filetime_to_datetime`.  The source treats
`None` and `0` as "no timestamp", computes `filetime / 10000000` by float true
division, adds `timedelta(seconds=that_float)` to the aware 1601 epoch, and
converts `ValueError` / `OverflowError` / `TypeError` — in particular an
out-of-range result — to `None`.  The returned integer is the resulting
`datetime` as microseconds since 1970. -/
def filetime_to_datetime (filetime : Option ℤ) : Option ℤ :=
  match filetime with
  | none => none
  | some ft =>
    if ft = 0 then none
    else
      let us : ℤ := EPOCH_1601_US + usOfDoubleSeconds (divDouble ft 10000000)
      if inDatetimeRange us then some us else none

/-- Model of the Chrome/Edge timestamp conversion inlined in
`collectors/network.py` (`parse_browser_history` and `parse_downloads`):
`datetime(1601,1,1,utc) + timedelta(microseconds=visit_time)` with an integer
microsecond count, hence exact; an out-of-range result raises `OverflowError`
(modelled as `none`; the surrounding handler then abandons the rest of that
browser). -/
def chrome_time_to_datetime (visit_time : ℤ) : Option ℤ :=
  let us := EPOCH_1601_US + visit_time
  if inDatetimeRange us then some us else none

/-- Model of the Firefox timestamp conversion inlined in
`collectors/network.py::parse_browser_history`:
`datetime.fromtimestamp(visit_date / 1000000, tz=utc)` — float true division,
whose fractional microseconds `fromtimestamp` rounds half to even;
out-of-range raises (modelled as `none`). -/
def firefox_time_to_datetime (visit_date : ℤ) : Option ℤ :=
  let us : ℤ := usOfDoubleSeconds (divDouble visit_date 1000000)
  if inDatetimeRange us then some us else none

/-- A Python `datetime` value: `us` is the clock reading laid on the UTC scale
in microseconds since 1970 (for an aware value this is the instant it denotes;
for a naive value it is the wall-clock reading, which `replace(tzinfo=utc)`
maps to the same number), and `aware` records whether `tzinfo` is set. -/
structure Timestamp where
  us : ℤ
  aware : Bool
deriving DecidableEq

/-- The triage window state built by `TriageWindow.__init__`. -/
structure TriageWindow where
  window_minutes : ℤ
  current_time : ℤ
  cutoff_time : ℤ
deriving DecidableEq

/-- Model of `TriageWindow.__init__`: capture `now` once and derive the cutoff
as `now - timedelta(minutes=window_minutes)` (integer minutes, exact). -/
def TriageWindow.create (now window_minutes : ℤ) : TriageWindow :=
  { window_minutes := window_minutes
    current_time := now
    cutoff_time := now - window_minutes * 60 * 1000000 }

/-- Model of `TriageWindow.is_within_window`: `None` is rejected, a naive
timestamp gets `tzinfo=utc` attached (same clock reading, hence the same `us`
value), and the result is `cutoff_time <= timestamp <= current_time`. -/
def TriageWindow.is_within_window (w : TriageWindow) (timestamp : Option Timestamp) : Bool :=
  match timestamp with
  | none => false
  | some t => decide (w.cutoff_time ≤ t.us) && decide (t.us ≤ w.current_time)

/-- Gregorian calendar date (year, month, day) of a day count relative to
1970-01-01 (Howard Hinnant's civil-from-days algorithm; `/` on ℤ is Euclidean
division, which floors for positive divisors). -/
def civilFromDays (z0 : ℤ) : ℤ × ℤ × ℤ :=
  let z := z0 + 719468
  let era := z / 146097
  let doe := z % 146097
  let yoe := (doe - doe / 1460 + doe / 36524 - doe / 146096) / 365
  let y := yoe + era * 400
  let doy := doe - (365 * yoe + yoe / 4 - yoe / 100)
  let mp := (5 * doy + 2) / 153
  let d := doy - (153 * mp + 2) / 5 + 1
  let m := mp + (if mp < 10 then 3 else -9)
  (y + (if m ≤ 2 then 1 else 0), m, d)

/-- Zero-pad a number to two digits. -/
def pad2 (n : ℕ) : String := if n < 10 then "0" ++ toString n else toString n

/-- Zero-pad a number to four digits. -/
def pad4 (n : ℕ) : String :=
  if n < 10 then "000" ++ toString n
  else if n < 100 then "00" ++ toString n
  else if n < 1000 then "0" ++ toString n
  else toString n

/-- Model of `dt.strftime('%Y-%m-%d %H:%M:%S UTC')` on an aware UTC datetime
given as microseconds since 1970: microseconds are truncated, the fields are
rendered zero-padded. -/
def strftimeUTC (us : ℤ) : String :=
  let sec := us / 1000000
  let days := sec / 86400
  let sod := (sec % 86400).toNat
  let c := civilFromDays days
  pad4 c.1.toNat ++ "-" ++ pad2 c.2.1.toNat ++ "-" ++ pad2 c.2.2.toNat ++ " " ++
    pad2 (sod / 3600) ++ ":" ++ pad2 (sod % 3600 / 60) ++ ":" ++ pad2 (sod % 60) ++ " UTC"

/-- Python `str.rstrip(chars)`: remove every trailing character that belongs
to the given character set (not just one literal suffix). -/
def rstripChars (cs : List Char) (s : String) : String :=
  String.mk ((s.data.reverse.dropWhile (fun c => cs.contains c)).reverse)

/-- Whether `s.strip()` is empty, i.e. `s` is blank (all whitespace). -/
def pyBlank (s : String) : Bool := s.data.all (fun c => c.isWhitespace)

/-- Python truthiness of an environment lookup: `os.getenv` yields `None`
when unset, and an empty string is falsy as well. -/
def pyFalsyStr (s : Option String) : Bool :=
  match s with
  | none => true
  | some str => str = ""

/-- Python list slice `l[-n:]`: the last `n` elements (all of them when the
list is shorter). -/
def lastN (n : ℕ) (l : List String) : List String := l.drop (l.length - n)

/-- ROT13 of a single character (`codecs.decode(_, 'rot_13')` is ROT13 on
ASCII letters and the identity elsewhere). -/
def rot13Char (c : Char) : Char :=
  if 'a' ≤ c ∧ c ≤ 'z' then Char.ofNat ((c.toNat - 'a'.toNat + 13) % 26 + 'a'.toNat)
  else if 'A' ≤ c ∧ c ≤ 'Z' then Char.ofNat ((c.toNat - 'A'.toNat + 13) % 26 + 'A'.toNat)
  else c

/-- ROT13 decoding of a string. -/
def rot13 (s : String) : String := String.mk (s.data.map rot13Char)

/-- Python `str.upper()` (ASCII case mapping, which is all that occurs in
prefetch file stems). -/
def pyUpper (s : String) : String := String.mk (s.data.map Char.toUpper)

/-- Little-endian unsigned integer read from `len` bytes at offset `off`
(`struct.unpack('<Q', data[60:68])` and friends; the callers guard the length
so the default byte 0 is never used). -/
def leUInt (bytes : List ℕ) (off len : ℕ) : ℕ :=
  (List.range len).foldr (fun i acc => bytes.getD (off + i) 0 + 256 * acc) 0

/-- Group a byte list into little-endian 16-bit code units, dropping a dangling
odd byte (as `errors='ignore'` does). -/
def utf16Units : List ℕ → List ℕ
  | b0 :: b1 :: rest => (b0 + 256 * b1) :: utf16Units rest
  | _ => []

/-- Decode UTF-16 code units to characters, silently dropping lone surrogates
(`bytes.decode('utf-16-le', errors='ignore')`). -/
def utf16Decode : List ℕ → List Char
  | [] => []
  | [u] => if u < 0xD800 ∨ 0xE000 ≤ u then [Char.ofNat u] else []
  | u :: u2 :: rest =>
    if u < 0xD800 ∨ 0xE000 ≤ u then Char.ofNat u :: utf16Decode (u2 :: rest)
    else if u < 0xDC00 then
      if 0xDC00 ≤ u2 ∧ u2 < 0xE000 then
        Char.ofNat (0x10000 + (u - 0xD800) * 1024 + (u2 - 0xDC00)) :: utf16Decode rest
      else utf16Decode (u2 :: rest)
    else utf16Decode (u2 :: rest)

/-- `Path(target_path).name` under Windows path rules: the part after the last
`\`, `/` or drive `:` separator. -/
def winBasename (s : String) : String :=
  String.mk ((s.data.reverse.takeWhile (fun c => c ≠ '\\' ∧ c ≠ '/' ∧ c ≠ ':')).reverse)

/-- The normalized record every parser emits (the standardized finding
dictionary): `timestamp_dt` is an aware UTC `datetime` as microseconds since
1970, and `timestamp` its string rendering. -/
structure Finding where
  timestamp : String
  timestamp_dt : ℤ
  artifact_type : String
  source : String
  description : String
  details : String
deriving DecidableEq

/-- Outcome of `winreg.OpenKey` on some registry path: the key, or the two
exception classes the parsers handle. -/
inductive RegOpenResult (α : Type) where
  | ok (key : α)
  | notFound
  | permissionDenied
deriving DecidableEq

/-- Registry value data as `winreg.EnumValue` / `QueryValueEx` yield it: a
bytes object, or data of some other type (on which `len` and `struct.unpack`
raise `TypeError`). -/
inductive RegData where
  | bytes (bs : List ℕ)
  | other
deriving DecidableEq

/-- One UserAssist `Count` key: its values in enumeration order. -/
structure UAKey where
  values : List (String × RegData)
deriving DecidableEq

/-- Host state read by `parse_userassist`: the open outcome of each of the two
fixed GUID `Count` subkeys, in the order of the `guids` list. -/
structure UserAssistEnv where
  guidKeys : List (RegOpenResult UAKey)
deriving DecidableEq

/-- Value loop of `collectors/execution.py::parse_userassist` over one key;
the boolean reports that the loop was abandoned by an exception reaching the
outer `except Exception` handler (`len` raising `TypeError` on non-bytes
data), which makes the parser return the findings collected so far. -/
def uaProcessValues (w : TriageWindow) : List (String × RegData) → List Finding × Bool
  | [] => ([], false)
  | (_, RegData.other) :: _ => ([], true)
  | (val_name, RegData.bytes bs) :: rest =>
      let decoded_name := rot13 val_name
      if 72 ≤ bs.length then
        let last_run_filetime := leUInt bs 60 8
        let run_count := leUInt bs 4 4
        let focus_time := leUInt bs 8 4
        match filetime_to_datetime (some (last_run_filetime : ℤ)) with
        | some last_run_dt =>
          if w.is_within_window (some ⟨last_run_dt, true⟩) then
            let p := uaProcessValues w rest
            ({ timestamp := strftimeUTC last_run_dt
               timestamp_dt := last_run_dt
               artifact_type := "Execution"
               source := "UserAssist"
               description := decoded_name
               details := "Run Count: " ++ toString run_count ++ ", Focus Time: " ++
                 toString focus_time ++ "ms" } :: p.1, p.2)
          else uaProcessValues w rest
        | none => uaProcessValues w rest
      else uaProcessValues w rest

/-- GUID loop of `parse_userassist`: a key that fails to open is skipped
(`except (FileNotFoundError, PermissionError): continue`); an abandoned value
loop ends the whole collection with what was gathered so far. -/
def uaProcessGuids (w : TriageWindow) : List (RegOpenResult UAKey) → List Finding
  | [] => []
  | RegOpenResult.notFound :: rest => uaProcessGuids w rest
  | RegOpenResult.permissionDenied :: rest => uaProcessGuids w rest
  | RegOpenResult.ok k :: rest =>
    let p := uaProcessValues w k.values
    if p.2 then p.1 else p.1 ++ uaProcessGuids w rest

/-- Model of `collectors/execution.py::parse_userassist`. -/
def parse_userassist (w : TriageWindow) (env : UserAssistEnv) : List Finding :=
  uaProcessGuids w env.guidKeys

/-- One `*.pf` file under the prefetch directory: its stem, printable path,
whether `stat()` raised (`OSError` / `PermissionError`, skipped per file), and
otherwise its modification instant (`fromtimestamp(st_mtime, utc)`) in
microseconds since 1970. -/
structure PFEntry where
  stem : String
  path : String
  statError : Bool
  mtime : ℤ
deriving DecidableEq

/-- Host state read by `parse_prefetch`: whether `C:\Windows\Prefetch` exists,
the globbed entries in iteration order, and an optional point after which the
iteration itself raises `PermissionError` (caught by the outer handler, which
keeps the findings gathered so far). -/
structure PrefetchEnv where
  dirExists : Bool
  entries : List PFEntry
  permissionAbortAfter : Option ℕ
deriving DecidableEq

/-- Model of `collectors/execution.py::parse_prefetch`. -/
def parse_prefetch (w : TriageWindow) (env : PrefetchEnv) : List Finding :=
  if !env.dirExists then []
  else
    let scanned :=
      match env.permissionAbortAfter with
      | some k => env.entries.take k
      | none => env.entries
    scanned.filterMap (fun pf =>
      if pf.statError then none
      else if w.is_within_window (some ⟨pf.mtime, true⟩) then
        let file_name := pf.stem
        let executable_name :=
          if file_name.data.contains '-' then
            pyUpper (String.mk (List.intercalate ['-'] ((file_name.data.splitOn '-').dropLast)))
          else pyUpper file_name
        some { timestamp := strftimeUTC pf.mtime
               timestamp_dt := pf.mtime
               artifact_type := "Execution"
               source := "Prefetch"
               description := executable_name
               details := "File: " ++ pf.path }
      else none)

/-- Non-overlapping greedy matches of the drive-letter path pattern
(an uppercase letter, a colon, a backslash, then one or more non-NUL
characters), scanning left to right as `re.findall` does; the fuel is the
input length, enough for one step per scanned position. -/
def scanDrivePaths : ℕ → List Char → List (List Char)
  | 0, _ => []
  | _ + 1, [] => []
  | fuel + 1, c :: rest =>
    if 'A' ≤ c ∧ c ≤ 'Z' then
      match rest with
      | ':' :: '\\' :: tail =>
        let body := tail.takeWhile (fun ch => ch ≠ '\x00')
        if body.isEmpty then scanDrivePaths fuel rest
        else (c :: ':' :: '\\' :: body) :: scanDrivePaths fuel (tail.drop body.length)
      | _ => scanDrivePaths fuel rest
    else scanDrivePaths fuel rest

/-- Non-overlapping greedy matches of the UNC path pattern (two backslashes,
one or more non-backslash characters, a backslash, then one or more non-NUL
characters); the greedy runs are forced, so no backtracking arises. -/
def scanUncPaths : ℕ → List Char → List (List Char)
  | 0, _ => []
  | _ + 1, [] => []
  | fuel + 1, c :: rest =>
    if c = '\\' then
      match rest with
      | '\\' :: tail =>
        let server := tail.takeWhile (fun ch => ch ≠ '\\')
        let afterServer := tail.drop server.length
        if server.isEmpty then scanUncPaths fuel rest
        else
          match afterServer with
          | '\\' :: tail2 =>
            let body := tail2.takeWhile (fun ch => ch ≠ '\x00')
            if body.isEmpty then scanUncPaths fuel rest
            else ('\\' :: '\\' :: (server ++ '\\' :: body)) ::
              scanUncPaths fuel (tail2.drop body.length)
          | _ => scanUncPaths fuel rest
      | _ => scanUncPaths fuel rest
    else scanUncPaths fuel rest

/-- Post-processing of one regex match: `match.split('\x00')[0]`, kept when
longer than 3 characters. -/
def goodMatch (m : List Char) : Option String :=
  let cleaned := m.takeWhile (fun ch => ch ≠ '\x00')
  if 3 < cleaned.length then some (String.mk cleaned) else none

/-- Model of `collectors/files.py::extract_lnk_target`: `none` content means
the open/read raised (any exception yields the error placeholder); otherwise
the magic byte `0x4C` is checked, the bytes are read as latin-1 text (byte
value = code point), and the first convincing drive-letter match wins, then
the first convincing UNC match, else a parse-failure placeholder. -/
def extract_lnk_target (content : Option (List ℕ)) : String :=
  match content with
  | none => "Error parsing .lnk file"
  | some bytes =>
    if bytes.length < 4 ∨ bytes.getD 0 0 ≠ 0x4C then "Invalid .lnk file"
    else
      let content_str := bytes.map (fun b => Char.ofNat b)
      match List.findSome? goodMatch (scanDrivePaths content_str.length content_str) with
      | some p => p
      | none =>
        match List.findSome? goodMatch (scanUncPaths content_str.length content_str) with
        | some p => p
        | none => "Unable to parse target path"

/-- One `*.lnk` file in the Recent folder: name, whether `stat()` raised
(skipped per file), modification and creation instants, and the raw content
(`none` when opening/reading it raises). -/
structure LnkEntry where
  name : String
  statError : Bool
  mtime : ℤ
  ctime : ℤ
  content : Option (List ℕ)
deriving DecidableEq

/-- Host state read by `parse_recent_files`: the `APPDATA` environment value,
whether the Recent folder exists, and its `*.lnk` entries in glob order. -/
structure RecentFilesEnv where
  appdata : Option String
  dirExists : Bool
  entries : List LnkEntry
deriving DecidableEq

/-- Model of `collectors/files.py::parse_recent_files`. -/
def parse_recent_files (w : TriageWindow) (env : RecentFilesEnv) : List Finding :=
  if pyFalsyStr env.appdata then []
  else
    if !env.dirExists then []
    else
      env.entries.filterMap (fun lnk =>
        if lnk.statError then none
        else
          let last_accessed := max lnk.mtime lnk.ctime
          if w.is_within_window (some ⟨last_accessed, true⟩) then
            let target_path := extract_lnk_target lnk.content
            some { timestamp := strftimeUTC last_accessed
                   timestamp_dt := last_accessed
                   artifact_type := "File Access"
                   source := "Recent Folder"
                   description := lnk.name
                   details := "Target: " ++ target_path }
          else none)

/-- Model of `collectors/hardware.py::get_device_install_time`: the default
value of the per-instance Properties subkey (`none` = missing key/value or
access denied) must be bytes of length at least 8 to yield a decoded FILETIME;
everything else returns `None`. -/
def get_device_install_time (prop : Option RegData) : Option ℤ :=
  match prop with
  | none => none
  | some RegData.other => none
  | some (RegData.bytes data) =>
    if 8 ≤ data.length then filetime_to_datetime (some (leUInt data 0 8 : ℤ)) else none

/-- One USBSTOR device instance: whether its key opens (`OSError` breaks the
instance loop), the `FriendlyName` / `DeviceDesc` values when present, and the
install-time Properties data. -/
structure USBInstanceEnv where
  instance_id : String
  openOk : Bool
  friendly_name : Option String
  device_desc : Option String
  install_prop : Option RegData
deriving DecidableEq

/-- One USBSTOR device class key with its instances in enumeration order. -/
structure USBDeviceEnv where
  device_id : String
  openOk : Bool
  instances : List USBInstanceEnv
deriving DecidableEq

/-- Host state read by `parse_usb_devices`: the open outcome of the USBSTOR
key and the device tree under it. -/
structure USBEnv where
  usbstor : RegOpenResult (List USBDeviceEnv)
deriving DecidableEq

/-- Instance loop of `collectors/hardware.py::parse_usb_devices`; an instance
key that fails to open raises `OSError`, which breaks the loop. -/
def usbProcessInstances (w : TriageWindow) : List USBInstanceEnv → List Finding
  | [] => []
  | inst :: rest =>
    if !inst.openOk then []
    else
      let friendly_name :=
        match inst.friendly_name with
        | some n => n
        | none =>
          match inst.device_desc with
          | some n => n
          | none => "Unknown Device"
      match get_device_install_time inst.install_prop with
      | some install_time =>
        if w.is_within_window (some ⟨install_time, true⟩) then
          { timestamp := strftimeUTC install_time
            timestamp_dt := install_time
            artifact_type := "Hardware"
            source := "USB Device"
            description := friendly_name
            details := "Instance: " ++ inst.instance_id } :: usbProcessInstances w rest
        else usbProcessInstances w rest
      | none => usbProcessInstances w rest

/-- Device loop of `parse_usb_devices`; a device key that fails to open raises
`OSError`, which breaks the loop. -/
def usbProcessDevices (w : TriageWindow) : List USBDeviceEnv → List Finding
  | [] => []
  | d :: rest =>
    if !d.openOk then []
    else usbProcessInstances w d.instances ++ usbProcessDevices w rest

/-- Model of `collectors/hardware.py::parse_usb_devices`. -/
def parse_usb_devices (w : TriageWindow) (env : USBEnv) : List Finding :=
  match env.usbstor with
  | RegOpenResult.ok devices => usbProcessDevices w devices
  | _ => []

/-- Host state read by `parse_powershell_history`: the `APPDATA` environment
value, whether `ConsoleHost_history.txt` exists, whether `stat()` (or the
mtime conversion) raised — handled by the outer `except Exception` — the
modification instant, whether opening/reading raised — handled by the inner
`except` — and the raw lines as `readlines` yields them. -/
structure PowershellEnv where
  appdata : Option String
  fileExists : Bool
  statError : Bool
  mtime : ℤ
  openError : Bool
  lines : List String
deriving DecidableEq

/-- Model of `collectors/commands.py::parse_powershell_history`. -/
def parse_powershell_history (w : TriageWindow) (env : PowershellEnv) : List Finding :=
  if pyFalsyStr env.appdata then []
  else
    if !env.fileExists then []
    else if env.statError then []
    else if w.is_within_window (some ⟨env.mtime, true⟩) then
      if env.openError then []
      else
        let commands := (env.lines.filter (fun cmd => !pyBlank cmd)).map (rstripChars ['\n', '\r'])
        if commands.isEmpty then []
        else
          [{ timestamp := strftimeUTC env.mtime
             timestamp_dt := env.mtime
             artifact_type := "Command Line"
             source := "PowerShell"
             description := "History file modified (" ++ toString commands.length ++ " commands)"
             details := "Last 5 commands: " ++ String.intercalate "; " (lastN 5 commands) }]
    else []

/-- A single registry key holding string values (RunMRU / TypedPaths): the
values in enumeration order and the key's last-modified FILETIME from
`QueryInfoKey`. -/
structure MRUKey where
  values : List (String × String)
  last_modified : ℤ
deriving DecidableEq

/-- Host state read by `parse_runmru`. -/
structure RunMRUEnv where
  key : RegOpenResult MRUKey
deriving DecidableEq

/-- Model of `collectors/commands.py::parse_runmru`: requires the key's
last-modified time to convert and to fall inside the window, then emits every
value whose name is not `MRUList` and whose data is non-empty, with
`rstrip('\\1')` applied — which strips all trailing backslash and `1`
characters. -/
def parse_runmru (w : TriageWindow) (env : RunMRUEnv) : List Finding :=
  match env.key with
  | RegOpenResult.ok k =>
    match filetime_to_datetime (some k.last_modified) with
    | none => []
    | some key_modified =>
      if w.is_within_window (some ⟨key_modified, true⟩) then
        k.values.filterMap (fun v =>
          if v.1 ≠ "MRUList" ∧ v.2 ≠ "" then
            some { timestamp := strftimeUTC key_modified
                   timestamp_dt := key_modified
                   artifact_type := "Command Line"
                   source := "RunMRU"
                   description := rstripChars ['\\', '1'] v.2
                   details := "Entry: " ++ v.1 }
          else none)
      else []
  | _ => []

/-- Host state read by `parse_typed_paths`. -/
structure TypedPathsEnv where
  key : RegOpenResult MRUKey
deriving DecidableEq

/-- Model of `collectors/registry.py::parse_typed_paths`. -/
def parse_typed_paths (w : TriageWindow) (env : TypedPathsEnv) : List Finding :=
  match env.key with
  | RegOpenResult.ok k =>
    match filetime_to_datetime (some k.last_modified) with
    | none => []
    | some key_modified =>
      if w.is_within_window (some ⟨key_modified, true⟩) then
        k.values.filterMap (fun v =>
          if v.2 ≠ "" then
            some { timestamp := strftimeUTC key_modified
                   timestamp_dt := key_modified
                   artifact_type := "Registry"
                   source := "TypedPaths"
                   description := v.2
                   details := "Entry: " ++ v.1 }
          else none)
      else []
  | _ => []

/-- One per-extension RecentDocs subkey: whether it opens (`OSError` breaks
the extension loop) and its values. -/
structure RDExt where
  extension : String
  openOk : Bool
  values : List (String × RegData)
deriving DecidableEq

/-- The RecentDocs key: its last-modified FILETIME and extension subkeys. -/
structure RDKey where
  last_modified : ℤ
  exts : List RDExt
deriving DecidableEq

/-- Host state read by `parse_recentdocs`. -/
structure RecentDocsEnv where
  key : RegOpenResult RDKey
deriving DecidableEq

/-- Value loop of `collectors/files.py::parse_recentdocs` for one extension:
skip `MRUListEx` and non-bytes data, decode UTF-16-LE ignoring errors, strip
trailing NULs, and emit non-empty names with the shared key timestamp. -/
def rdProcessValues (km : ℤ) (extension : String) : List (String × RegData) → List Finding
  | [] => []
  | (val_name, RegData.other) :: rest => rdProcessValues km extension rest
  | (val_name, RegData.bytes bs) :: rest =>
    if val_name ≠ "MRUListEx" then
      let filename := rstripChars ['\x00'] (String.mk (utf16Decode (utf16Units bs)))
      if filename ≠ "" then
        { timestamp := strftimeUTC km
          timestamp_dt := km
          artifact_type := "File Access"
          source := "RecentDocs"
          description := filename
          details := "Extension: ." ++ extension } :: rdProcessValues km extension rest
      else rdProcessValues km extension rest
    else rdProcessValues km extension rest

/-- Extension loop of `parse_recentdocs`; a subkey that fails to open raises
`OSError`, which breaks the loop. -/
def rdProcessExts (km : ℤ) : List RDExt → List Finding
  | [] => []
  | e :: rest =>
    if !e.openOk then []
    else rdProcessValues km e.extension e.values ++ rdProcessExts km rest

/-- Model of `collectors/files.py::parse_recentdocs`. -/
def parse_recentdocs (w : TriageWindow) (env : RecentDocsEnv) : List Finding :=
  match env.key with
  | RegOpenResult.ok k =>
    match filetime_to_datetime (some k.last_modified) with
    | none => []
    | some key_modified =>
      if w.is_within_window (some ⟨key_modified, true⟩) then rdProcessExts key_modified k.exts
      else []
  | _ => []

/-- One row of the Chrome/Edge `urls INNER JOIN visits` query. -/
structure ChromeRow where
  url : String
  title : Option String
  visit_count : ℤ
  visit_time : ℤ
deriving DecidableEq

/-- One browser history database: whether the file exists, whether the
copy/connect/query raised (handled by the per-browser `except`, yielding
nothing from this browser), and the query rows in result order. -/
structure ChromeDB where
  present : Bool
  accessError : Bool
  rows : List ChromeRow
deriving DecidableEq

/-- `title[:100] if title else 'No Title'`: `None` and the empty string are
falsy. -/
def pyTitle (title : Option String) : String :=
  match title with
  | some t => if t ≠ "" then String.mk (t.data.take 100) else "No Title"
  | none => "No Title"

/-- Row loop of the Chrome/Edge part of `parse_browser_history`; a conversion
overflow raises, and the per-browser handler abandons the rest of this browser
while keeping earlier findings. -/
def chromeProcessRows (w : TriageWindow) (browser_name : String) : List ChromeRow → List Finding
  | [] => []
  | row :: rest =>
    match chrome_time_to_datetime row.visit_time with
    | none => []
    | some visit_dt =>
      if w.is_within_window (some ⟨visit_dt, true⟩) then
        { timestamp := strftimeUTC visit_dt
          timestamp_dt := visit_dt
          artifact_type := "Web Activity"
          source := browser_name ++ " Browser"
          description := pyTitle row.title
          details := "URL: " ++ row.url } :: chromeProcessRows w browser_name rest
      else chromeProcessRows w browser_name rest

/-- One Chrome-style browser in `parse_browser_history`. -/
def chromeSection (w : TriageWindow) (browser_name : String) (db : ChromeDB) : List Finding :=
  if !db.present then []
  else if db.accessError then []
  else chromeProcessRows w browser_name db.rows

/-- One row of the Firefox `moz_places INNER JOIN moz_historyvisits` query. -/
structure FirefoxRow where
  url : String
  title : Option String
  visit_count : ℤ
  visit_date : ℤ
deriving DecidableEq

/-- One Firefox profile directory from the `*.default*` glob. -/
structure FirefoxProfile where
  placesExists : Bool
  accessError : Bool
  rows : List FirefoxRow
deriving DecidableEq

/-- Row loop of the Firefox part of `parse_browser_history`; a conversion
failure raises, and the whole-section handler keeps what was gathered. -/
def firefoxProcessRows (w : TriageWindow) : List FirefoxRow → List Finding
  | [] => []
  | row :: rest =>
    match firefox_time_to_datetime row.visit_date with
    | none => []
    | some visit_dt =>
      if w.is_within_window (some ⟨visit_dt, true⟩) then
        { timestamp := strftimeUTC visit_dt
          timestamp_dt := visit_dt
          artifact_type := "Web Activity"
          source := "Firefox Browser"
          description := pyTitle row.title
          details := "URL: " ++ row.url } :: firefoxProcessRows w rest
      else firefoxProcessRows w rest

/-- Profile loop of the Firefox part: profiles without `places.sqlite` are
skipped, the first one with it is read, and the `break` ends the loop after
it; an access error abandons the whole section. -/
def firefoxSection (w : TriageWindow) : List FirefoxProfile → List Finding
  | [] => []
  | p :: rest =>
    if !p.placesExists then firefoxSection w rest
    else if p.accessError then []
    else firefoxProcessRows w p.rows

/-- Host state read by `parse_browser_history`. -/
structure BrowserHistoryEnv where
  localappdata : Option String
  appdata : Option String
  chrome : ChromeDB
  edge : ChromeDB
  profilesDirExists : Bool
  profiles : List FirefoxProfile
deriving DecidableEq

/-- Model of `collectors/network.py::parse_browser_history`: requires both
`LOCALAPPDATA` and `APPDATA`, then Chrome, Edge and Firefox in that order. -/
def parse_browser_history (w : TriageWindow) (env : BrowserHistoryEnv) : List Finding :=
  if pyFalsyStr env.localappdata || pyFalsyStr env.appdata then []
  else
    chromeSection w "Chrome" env.chrome ++ chromeSection w "Edge" env.edge ++
      (if env.profilesDirExists then firefoxSection w env.profiles else [])

/-- One row of the Chrome/Edge `downloads` query. -/
structure DownloadRow where
  target_path : String
  tab_url : String
  start_time : ℤ
  total_bytes : ℤ
  mime_type : String
deriving DecidableEq

/-- One downloads database, as for `ChromeDB`. -/
structure DownloadsDB where
  present : Bool
  accessError : Bool
  rows : List DownloadRow
deriving DecidableEq

/-- Row loop of `parse_downloads` for one browser. -/
def downloadsProcessRows (w : TriageWindow) (browser_name : String) :
    List DownloadRow → List Finding
  | [] => []
  | row :: rest =>
    match chrome_time_to_datetime row.start_time with
    | none => []
    | some download_dt =>
      if w.is_within_window (some ⟨download_dt, true⟩) then
        { timestamp := strftimeUTC download_dt
          timestamp_dt := download_dt
          artifact_type := "Download"
          source := browser_name ++ " Browser"
          description := winBasename row.target_path
          details := "Size: " ++ toString row.total_bytes ++ " bytes, Source: " ++
            row.tab_url } :: downloadsProcessRows w browser_name rest
      else downloadsProcessRows w browser_name rest

/-- One browser in `parse_downloads`. -/
def downloadsSection (w : TriageWindow) (browser_name : String) (db : DownloadsDB) :
    List Finding :=
  if !db.present then []
  else if db.accessError then []
  else downloadsProcessRows w browser_name db.rows

/-- Host state read by `parse_downloads`. -/
structure DownloadsEnv where
  localappdata : Option String
  chrome : DownloadsDB
  edge : DownloadsDB
deriving DecidableEq

/-- Model of `collectors/network.py::parse_downloads`. -/
def parse_downloads (w : TriageWindow) (env : DownloadsEnv) : List Finding :=
  if pyFalsyStr env.localappdata then []
  else downloadsSection w "Chrome" env.chrome ++ downloadsSection w "Edge" env.edge

/-- Result of one collector call at the orchestrator boundary: the findings
it returned, or the exception it raised (carried as its message). -/
def okOrEmpty (r : Except String (List Finding)) : List Finding :=
  match r with
  | Except.ok results => results
  | Except.error _ => []

/-- One iteration of the collector loop of
`tracefinder.py::collect_all_artifacts`: the collector of the fixed ten-entry
list is invoked inside `try`; a returned list extends the accumulator
(extending with an empty list is a no-op, which is what the `if results:`
guard amounts to), an exception is printed and skipped, and there is no
retry. -/
def collectStep (all_findings : List Finding) (r : Except String (List Finding)) :
    List Finding :=
  match r with
  | Except.ok results => all_findings ++ results
  | Except.error _ => all_findings

/-- The loop of `collect_all_artifacts` folded over the per-collector
outcomes in collector order. -/
def collect_all_artifacts (outcomes : List (Except String (List Finding))) : List Finding :=
  outcomes.foldl collectStep []

/-- A Python value stored under the `timestamp_dt` key of a finding dict: a
`datetime` (aware or naive) or some other object with no ordering relative to
datetimes (such as `None`), comparison with which raises `TypeError`. -/
inductive SortVal where
  | dt (aware : Bool) (us : ℤ)
  | other
deriving DecidableEq

/-- A finding dictionary as the sorter sees it: `timestamp_dt` may be absent,
in which case `x.get` supplies aware `datetime.min`. -/
structure FindingDict where
  timestamp : String
  timestamp_dt : Option SortVal
  artifact_type : String
  source : String
  description : String
  details : String
deriving DecidableEq

/-- Injection of a parser-produced finding into the dict view: every parser
stores an aware UTC datetime under `timestamp_dt`. -/
def Finding.toDict (f : Finding) : FindingDict :=
  { timestamp := f.timestamp
    timestamp_dt := some (SortVal.dt true f.timestamp_dt)
    artifact_type := f.artifact_type
    source := f.source
    description := f.description
    details := f.details }

/-- The sort key `x.get('timestamp_dt', datetime.min.replace(tzinfo=utc))`. -/
def sortKey (x : FindingDict) : SortVal :=
  x.timestamp_dt.getD (SortVal.dt true DATETIME_MIN_US)

/-- Whether Python can order two such values: datetimes compare when both are
aware or both naive; any other pairing raises `TypeError`. -/
def svalComparable : SortVal → SortVal → Bool
  | SortVal.dt a1 _, SortVal.dt a2 _ => a1 == a2
  | _, _ => false

/-- Whether every pair of keys in the list is orderable; `sorted` raises
`TypeError` exactly when it compares a pair that is not, which over a mixed
list it always eventually does. -/
def allComparable : List SortVal → Bool
  | [] => true
  | k :: rest => rest.all (fun k2 => svalComparable k k2) && allComparable rest

/-- The microsecond reading of a finding's sort key; on any pairwise
comparable list, Python's datetime order is the order of these numbers. -/
def keyUs (x : FindingDict) : ℤ :=
  match sortKey x with
  | SortVal.dt _ u => u
  | SortVal.other => 0

/-- Stable descending insertion: the inserted element, which came later in
the original order, goes after every element whose key is at least as
large. -/
def insertDesc (a : FindingDict) : List FindingDict → List FindingDict
  | [] => [a]
  | b :: t => if keyUs b < keyUs a then a :: b :: t else b :: insertDesc a t

/-- The stable descending sort that `sorted(_, key=..., reverse=True)`
computes on a list of pairwise-comparable keys. -/
def stableSortDesc (l : List FindingDict) : List FindingDict :=
  l.foldl (fun acc a => insertDesc a acc) []

/-- Model of `tracefinder.py::sort_findings_by_timestamp`: sort stably by the
`timestamp_dt` key descending, defaulting a missing key to aware
`datetime.min`; if the sort raises internally (incomparable keys), the
`except` handler returns the input list unchanged. -/
def sort_findings_by_timestamp (findings : List FindingDict) : List FindingDict :=
  if allComparable (findings.map sortKey) then stableSortDesc findings
  else findings

/-! Concrete values used to exercise the model at specific inputs. -/

/-- A finding dictionary lacking the `timestamp_dt` key. -/
def fdNoKey : FindingDict :=
  { timestamp := "", timestamp_dt := none, artifact_type := "", source := "",
    description := "missing-key finding", details := "" }

/-- A finding dictionary explicitly timestamped with aware `datetime.min`. -/
def fdMinKey : FindingDict :=
  { timestamp := "0001-01-01 00:00:00 UTC",
    timestamp_dt := some (SortVal.dt true DATETIME_MIN_US), artifact_type := "", source := "",
    description := "minimum-timestamp finding", details := "" }

/-- A finding dictionary carrying a naive datetime, incomparable with aware
ones. -/
def fdNaiveKey : FindingDict :=
  { timestamp := "", timestamp_dt := some (SortVal.dt false 0), artifact_type := "",
    source := "", description := "naive finding", details := "" }

/-- A triage window of 180 minutes ending 2024-01-01T01:00:00Z. -/
def wJan2024 : TriageWindow := TriageWindow.create 1704070800000000 180

/-- A RunMRU key inside `wJan2024` whose values include an empty-data entry
and an entry whose data merely ends in the digit 1 (`QueryInfoKey` FILETIME
133485408000000000 is 2024-01-01T00:00:00Z). -/
def envRunMRUEdge : RunMRUEnv :=
  ⟨RegOpenResult.ok ⟨[("a", ""), ("b", "dir1"), ("MRUList", "ab")], 133485408000000000⟩⟩

/-- The synthetic RunMRU key of the specification scenario. -/
def envRunMRUSpec : RunMRUEnv :=
  ⟨RegOpenResult.ok ⟨[("a", "C:\\tool.exe\\1"), ("MRUList", "a")], 133485408000000000⟩⟩

/-- A Recent-folder state holding a single malformed shortcut file modified
inside `wJan2024`. -/
def envRecentMalformed : RecentFilesEnv :=
  { appdata := some "C:\\Users\\x\\AppData\\Roaming"
    dirExists := true
    entries := [{ name := "evil.lnk", statError := false, mtime := 1704067200000000,
                  ctime := 1704067200000000, content := some [0, 0] }] }

/-- Sample finding dicts with timestamps t1 > t2 = t2 > t3 for the sort
scenario. -/
def fdT1 : FindingDict :=
  { timestamp := "", timestamp_dt := some (SortVal.dt true 4000), artifact_type := "",
    source := "", description := "one", details := "" }

/-- First of the two findings sharing the middle timestamp. -/
def fdT2a : FindingDict :=
  { timestamp := "", timestamp_dt := some (SortVal.dt true 3000), artifact_type := "",
    source := "", description := "two-a", details := "" }

/-- Second of the two findings sharing the middle timestamp. -/
def fdT2b : FindingDict :=
  { timestamp := "", timestamp_dt := some (SortVal.dt true 3000), artifact_type := "",
    source := "", description := "two-b", details := "" }

/-- The oldest sample finding dict. -/
def fdT3 : FindingDict :=
  { timestamp := "", timestamp_dt := some (SortVal.dt true 1000), artifact_type := "",
    source := "", description := "three", details := "" }

/-- Two sample findings for exercising the orchestrator. -/
def findingA : Finding :=
  { timestamp := "2024-01-01 00:00:00 UTC", timestamp_dt := 1704067200000000,
    artifact_type := "Execution", source := "Prefetch", description := "CALC.EXE",
    details := "File: C:\\Windows\\Prefetch\\CALC.EXE-ABCDEF12.pf" }

/-- A second sample finding. -/
def findingB : Finding :=
  { timestamp := "2024-01-01 00:30:00 UTC", timestamp_dt := 1704069000000000,
    artifact_type := "Command Line", source := "RunMRU", description := "cmd",
    details := "Entry: a" }

/-- The emission invariant every parser maintains: the rendered timestamp
string matches the datetime field, and the datetime satisfies the window
predicate (in particular it is non-null). -/
def emittedOk (w : TriageWindow) (f : Finding) : Prop :=
  f.timestamp = strftimeUTC f.timestamp_dt ∧
  w.is_within_window (some ⟨f.timestamp_dt, true⟩) = true

/-- A TypedPaths key state inside `wJan2024` holding one value. -/
def envTypedPathsW : TypedPathsEnv :=
  ⟨RegOpenResult.ok ⟨[("url1", "D:\\share")], 133485408000000000⟩⟩

/-- The finding `parse_typed_paths` emits from `envTypedPathsW`. -/
def fTypedPathsW : Finding :=
  ⟨"2024-01-01 00:00:00 UTC", 1704067200000000, "Registry", "TypedPaths", "D:\\share",
    "Entry: url1"⟩

/-- A PowerShell history state inside `wJan2024` with seven non-blank
lines. -/
def envPowershellW : PowershellEnv :=
  { appdata := some "C:\\Users\\x\\AppData\\Roaming"
    fileExists := true
    statError := false
    mtime := 1704067200000000
    openError := false
    lines := ["whoami\n", "  \n", "dir\n", "ipconfig\n", "cd ..\n", "cls\n", "exit\n",
      "Get-Date\n"] }

/-- The finding `parse_powershell_history` emits from `envPowershellW`. -/
def fPowershellW : Finding :=
  ⟨"2024-01-01 00:00:00 UTC", 1704067200000000, "Command Line", "PowerShell",
    "History file modified (7 commands)",
    "Last 5 commands: ipconfig; cd ..; cls; exit; Get-Date"⟩

/-! Helper lemmas. -/

lemma collectStep_eq (acc : List Finding) (r : Except String (List Finding)) :
    collectStep acc r = acc ++ okOrEmpty r := by
  cases r <;> simp [collectStep, okOrEmpty]

lemma foldl_collectStep (outcomes : List (Except String (List Finding))) :
    ∀ acc : List Finding,
      outcomes.foldl collectStep acc = acc ++ (outcomes.map okOrEmpty).flatten := by
  induction outcomes with
  | nil => intro acc; simp
  | cons r rest ih =>
    intro acc
    rw [List.foldl_cons, collectStep_eq, ih, List.append_assoc]
    simp

lemma collect_all_eq_join (outcomes : List (Except String (List Finding))) :
    collect_all_artifacts outcomes = (outcomes.map okOrEmpty).flatten := by
  rw [collect_all_artifacts, foldl_collectStep]
  simp

lemma mem_insertDesc {x a : FindingDict} :
    ∀ {t : List FindingDict}, x ∈ insertDesc a t → x = a ∨ x ∈ t := by
  intro t
  induction t with
  | nil =>
    intro h
    simp only [insertDesc, List.mem_singleton] at h
    exact Or.inl h
  | cons b t ih =>
    intro h
    rw [insertDesc] at h
    by_cases hb : keyUs b < keyUs a
    · rw [if_pos hb] at h
      rcases List.mem_cons.mp h with h1 | h1
      · exact Or.inl h1
      · exact Or.inr h1
    · rw [if_neg hb] at h
      rcases List.mem_cons.mp h with h1 | h1
      · exact Or.inr (List.mem_cons.mpr (Or.inl h1))
      · rcases ih h1 with h2 | h2
        · exact Or.inl h2
        · exact Or.inr (List.mem_cons.mpr (Or.inr h2))

lemma insertDesc_perm (a : FindingDict) :
    ∀ t : List FindingDict, (insertDesc a t).Perm (a :: t) := by
  intro t
  induction t with
  | nil => simp [insertDesc]
  | cons b t ih =>
    rw [insertDesc]
    by_cases hb : keyUs b < keyUs a
    · rw [if_pos hb]
    · rw [if_neg hb]
      exact (ih.cons b).trans (List.Perm.swap a b t)

lemma insertDesc_pairwise {a : FindingDict} :
    ∀ {t : List FindingDict}, t.Pairwise (fun x y => keyUs y ≤ keyUs x) →
      (insertDesc a t).Pairwise (fun x y => keyUs y ≤ keyUs x) := by
  intro t
  induction t with
  | nil => intro _; simp [insertDesc]
  | cons b t ih =>
    intro h
    rw [List.pairwise_cons] at h
    obtain ⟨hb, ht⟩ := h
    rw [insertDesc]
    by_cases hlt : keyUs b < keyUs a
    · rw [if_pos hlt]
      refine List.Pairwise.cons ?_ (List.Pairwise.cons hb ht)
      intro y hy
      rcases List.mem_cons.mp hy with rfl | hy
      · exact le_of_lt hlt
      · exact le_trans (hb y hy) (le_of_lt hlt)
    · rw [if_neg hlt]
      refine List.Pairwise.cons ?_ (ih ht)
      intro y hy
      rcases mem_insertDesc hy with rfl | hy
      · exact not_lt.mp hlt
      · exact hb y hy

lemma filter_eq_nil_of_lt {t : List FindingDict} {b : FindingDict} {k : ℤ}
    (hsort : ∀ y ∈ t, keyUs y ≤ keyUs b) (hk : keyUs b < k) :
    (b :: t).filter (fun f => decide (keyUs f = k)) = [] := by
  rw [List.filter_eq_nil_iff]
  intro y hy
  rcases List.mem_cons.mp hy with rfl | hy
  · simp only [decide_eq_true_eq]
    omega
  · have := hsort y hy
    simp only [decide_eq_true_eq]
    omega

lemma insertDesc_filter (a : FindingDict) (k : ℤ) :
    ∀ t : List FindingDict, t.Pairwise (fun x y => keyUs y ≤ keyUs x) →
      (insertDesc a t).filter (fun f => decide (keyUs f = k)) =
        if keyUs a = k then t.filter (fun f => decide (keyUs f = k)) ++ [a]
        else t.filter (fun f => decide (keyUs f = k)) := by
  intro t
  induction t with
  | nil =>
    intro _
    by_cases hk : keyUs a = k <;> simp [insertDesc, List.filter, hk]
  | cons b t ih =>
    intro h
    rw [List.pairwise_cons] at h
    obtain ⟨hb, ht⟩ := h
    rw [insertDesc]
    by_cases hlt : keyUs b < keyUs a
    · rw [if_pos hlt]
      by_cases hk : keyUs a = k
      · have hnil : (b :: t).filter (fun f => decide (keyUs f = k)) = [] :=
          filter_eq_nil_of_lt hb (by omega)
        rw [if_pos hk, hnil, List.filter_cons_of_pos (by simpa using hk), hnil]
        simp
      · rw [if_neg hk, List.filter_cons_of_neg (by simpa using hk)]
    · rw [if_neg hlt, List.filter_cons, ih ht]
      by_cases hk : keyUs a = k <;> by_cases hbk : keyUs b = k <;>
        simp [hk, hbk, List.filter_cons]

lemma sortAux :
    ∀ (l acc : List FindingDict), acc.Pairwise (fun x y => keyUs y ≤ keyUs x) →
      (List.foldl (fun acc a => insertDesc a acc) acc l).Pairwise
        (fun x y => keyUs y ≤ keyUs x) ∧
      (∀ k : ℤ,
        (List.foldl (fun acc a => insertDesc a acc) acc l).filter
            (fun f => decide (keyUs f = k)) =
          acc.filter (fun f => decide (keyUs f = k)) ++
            l.filter (fun f => decide (keyUs f = k))) ∧
      (List.foldl (fun acc a => insertDesc a acc) acc l).Perm (acc ++ l) := by
  intro l
  induction l with
  | nil => intro acc h; exact ⟨h, fun k => by simp, by simp⟩
  | cons a l ih =>
    intro acc h
    have hins := insertDesc_pairwise (a := a) h
    obtain ⟨ih1, ih2, ih3⟩ := ih (insertDesc a acc) hins
    refine ⟨ih1, fun k => ?_, ?_⟩
    · rw [List.foldl_cons, ih2 k, insertDesc_filter a k acc h]
      by_cases hk : keyUs a = k
      · rw [if_pos hk, List.filter_cons_of_pos (by simpa using hk)]
        simp
      · rw [if_neg hk, List.filter_cons_of_neg (by simpa using hk)]
    · rw [List.foldl_cons]
      refine ih3.trans ?_
      refine ((insertDesc_perm a acc).append_right l).trans ?_
      exact List.perm_middle.symm

lemma keyUs_of_none {f : FindingDict} (h : f.timestamp_dt = none) :
    keyUs f = DATETIME_MIN_US := by
  simp [keyUs, sortKey, h]

lemma allComparable_of_aware :
    ∀ {ks : List SortVal},
      (∀ k ∈ ks, ∃ u : ℤ, k = SortVal.dt true u) → allComparable ks = true := by
  intro ks
  induction ks with
  | nil => intro _; rfl
  | cons k rest ih =>
    intro h
    obtain ⟨u, hu⟩ := h k (List.mem_cons_self k rest)
    rw [allComparable, Bool.and_eq_true]
    refine ⟨?_, ih (fun k2 hk2 => h k2 (List.mem_cons_of_mem k hk2))⟩
    rw [List.all_eq_true]
    intro k2 hk2
    obtain ⟨u2, hu2⟩ := h k2 (List.mem_cons_of_mem k hk2)
    subst hu
    subst hu2
    rfl

lemma sortKey_aware_of_shape {f : FindingDict}
    (h : f.timestamp_dt = none ∨ ∃ u : ℤ, f.timestamp_dt = some (SortVal.dt true u)) :
    ∃ u : ℤ, sortKey f = SortVal.dt true u := by
  rcases h with h | ⟨u, hu⟩
  · exact ⟨DATETIME_MIN_US, by simp [sortKey, h]⟩
  · exact ⟨u, by simp [sortKey, hu]⟩

/-! Claim theorems: time window and orchestrator. -/

/-- C3: `is_within_window` rejects `None`, treats a timestamp lacking zone
information as UTC (the `aware` flag does not affect the verdict, exactly as
`replace(tzinfo=utc)` keeps the clock reading), and holds exactly on
`cutoff_time ≤ t ≤ current_time`, both boundaries included. -/
theorem is_within_window_spec (w : TriageWindow) :
    w.is_within_window none = false ∧
    (∀ (us : ℤ) (aware : Bool),
      w.is_within_window (some ⟨us, aware⟩) = w.is_within_window (some ⟨us, true⟩)) ∧
    (∀ (us : ℤ) (aware : Bool),
      w.is_within_window (some ⟨us, aware⟩) = true ↔
        w.cutoff_time ≤ us ∧ us ≤ w.current_time) := by
  refine ⟨rfl, fun us aware => rfl, fun us aware => ?_⟩
  simp [TriageWindow.is_within_window]

/-- C2: if the collector at position `i` of the orchestrator's fixed list
raises, `collect_all_artifacts` still returns the in-order concatenation of
every collector's contribution, the faulting position contributing the empty
list: the fault is caught, not propagated, and there is no retry. -/
theorem collect_all_fault_isolation (outcomes : List (Except String (List Finding)))
    (i : ℕ) (e : String) (h : outcomes[i]? = some (Except.error e)) :
    collect_all_artifacts outcomes = (outcomes.map okOrEmpty).flatten ∧
    (outcomes.map okOrEmpty)[i]? = some [] := by
  refine ⟨collect_all_eq_join outcomes, ?_⟩
  rw [List.getElem?_map, h]
  rfl

/-! Claim theorems: the sort stage. -/

/-- C7: on any list of findings whose `timestamp_dt` entries are aware
datetimes (what every parser emits), `sort_findings_by_timestamp` returns a
permutation of its input that is pairwise non-increasing on the timestamp, and
the findings holding any fixed timestamp keep their original relative order
(the sort is stable). -/
theorem sort_findings_by_timestamp_stable_desc (l : List FindingDict)
    (h : ∀ f ∈ l, ∃ u : ℤ, f.timestamp_dt = some (SortVal.dt true u)) :
    (sort_findings_by_timestamp l).Perm l ∧
    (sort_findings_by_timestamp l).Pairwise (fun a b => keyUs b ≤ keyUs a) ∧
    ∀ k : ℤ, (sort_findings_by_timestamp l).filter (fun f => decide (keyUs f = k)) =
      l.filter (fun f => decide (keyUs f = k)) := by
  have hcomp : allComparable (l.map sortKey) = true := by
    apply allComparable_of_aware
    intro kk hk
    rw [List.mem_map] at hk
    obtain ⟨f, hf, rfl⟩ := hk
    obtain ⟨u, hu⟩ := h f hf
    exact ⟨u, by simp [sortKey, hu]⟩
  rw [sort_findings_by_timestamp, if_pos hcomp, stableSortDesc]
  obtain ⟨h1, h2, h3⟩ := sortAux l [] List.Pairwise.nil
  exact ⟨by simpa using h3, h1, fun k => by simpa using h2 k⟩

/-- Witness for C2 at a concrete three-collector outcome list whose middle
entry faulted. -/
theorem collect_all_fault_isolation_witness :
    ([Except.ok [findingA], Except.error "boom", Except.ok [findingB]] :
        List (Except String (List Finding)))[1]? = some (Except.error "boom") ∧
    (collect_all_artifacts [Except.ok [findingA], Except.error "boom", Except.ok [findingB]] =
      (([Except.ok [findingA], Except.error "boom", Except.ok [findingB]] :
          List (Except String (List Finding))).map okOrEmpty).flatten ∧
    (([Except.ok [findingA], Except.error "boom", Except.ok [findingB]] :
        List (Except String (List Finding))).map okOrEmpty)[1]? = some []) := by
  refine ⟨rfl, ?_⟩
  exact collect_all_fault_isolation _ 1 "boom" rfl

/-- Witness for C7 at the specification's `[t1 > t2 = t2 > t3]` scenario,
with the concrete stable descending output evaluated. -/
theorem sort_findings_by_timestamp_stable_desc_witness :
    (sort_findings_by_timestamp [fdT3, fdT2a, fdT1, fdT2b]).Perm [fdT3, fdT2a, fdT1, fdT2b] ∧
    (sort_findings_by_timestamp [fdT3, fdT2a, fdT1, fdT2b]).Pairwise
      (fun a b => keyUs b ≤ keyUs a) ∧
    (∀ k : ℤ,
      (sort_findings_by_timestamp [fdT3, fdT2a, fdT1, fdT2b]).filter
          (fun f => decide (keyUs f = k)) =
        ([fdT3, fdT2a, fdT1, fdT2b] : List FindingDict).filter
          (fun f => decide (keyUs f = k))) ∧
    sort_findings_by_timestamp [fdT3, fdT2a, fdT1, fdT2b] = [fdT1, fdT2a, fdT2b, fdT3] := by
  obtain ⟨h1, h2, h3⟩ :=
    sort_findings_by_timestamp_stable_desc [fdT3, fdT2a, fdT1, fdT2b] (by
      intro f hf
      rcases List.mem_cons.mp hf with rfl | hf
      · exact ⟨1000, rfl⟩
      rcases List.mem_cons.mp hf with rfl | hf
      · exact ⟨3000, rfl⟩
      rcases List.mem_cons.mp hf with rfl | hf
      · exact ⟨4000, rfl⟩
      rcases List.mem_cons.mp hf with rfl | hf
      · exact ⟨3000, rfl⟩
      · exact absurd hf (List.not_mem_nil f))
  exact ⟨h1, h2, h3, by decide⟩

/-- C10 counterexample: with a missing-key finding first and a finding
explicitly timestamped aware `datetime.min` second, the sort keeps the
missing-key finding first — it is not placed after every timestamped
finding. -/
theorem sort_missing_key_counterexample :
    sort_findings_by_timestamp [fdNoKey, fdMinKey] = [fdNoKey, fdMinKey] ∧
    fdNoKey.timestamp_dt = none ∧
    fdMinKey.timestamp_dt = some (SortVal.dt true DATETIME_MIN_US) ∧
    fdNoKey ≠ fdMinKey := by
  exact ⟨by decide, rfl, rfl, by decide⟩

/-- C10 (amended): `sort_findings_by_timestamp` is total; on lists whose
entries carry aware datetimes or lack the key it sorts stably descending,
treating a missing key as aware `datetime.min` (so such findings land after
every finding with a strictly greater timestamp, while ties — including
explicit minimal timestamps — keep input order); when the keys are not
pairwise comparable the internal sort raises and the input list is returned
unchanged. -/
theorem sort_findings_by_timestamp_total (l : List FindingDict) :
    ((∀ f ∈ l, f.timestamp_dt = none ∨ ∃ u : ℤ, f.timestamp_dt = some (SortVal.dt true u)) →
      (sort_findings_by_timestamp l).Perm l ∧
      (sort_findings_by_timestamp l).Pairwise (fun a b => keyUs b ≤ keyUs a) ∧
      (∀ f ∈ l, f.timestamp_dt = none → sortKey f = SortVal.dt true DATETIME_MIN_US) ∧
      (sort_findings_by_timestamp l).Pairwise
        (fun a b => a.timestamp_dt = none → keyUs b ≤ DATETIME_MIN_US)) ∧
    (allComparable (l.map sortKey) = false → sort_findings_by_timestamp l = l) := by
  constructor
  · intro h
    have hcomp : allComparable (l.map sortKey) = true := by
      apply allComparable_of_aware
      intro kk hk
      rw [List.mem_map] at hk
      obtain ⟨f, hf, rfl⟩ := hk
      exact sortKey_aware_of_shape (h f hf)
    rw [sort_findings_by_timestamp, if_pos hcomp, stableSortDesc]
    obtain ⟨h1, h2, h3⟩ := sortAux l [] List.Pairwise.nil
    refine ⟨by simpa using h3, h1, ?_, ?_⟩
    · intro f _ hnone
      simp [sortKey, hnone]
    · exact h1.imp (fun {a b} hab hnone => by rw [keyUs_of_none hnone] at hab; exact hab)
  · intro hfail
    rw [sort_findings_by_timestamp, if_neg (by simp [hfail])]

/-- Witness for C10: the comparable half at a two-element list containing a
missing-key finding, and the error half at a list mixing naive and aware
datetimes. -/
theorem sort_findings_by_timestamp_total_witness :
    (sort_findings_by_timestamp [fdNoKey, fdMinKey]).Perm [fdNoKey, fdMinKey] ∧
    sort_findings_by_timestamp [fdNaiveKey, fdMinKey] = [fdNaiveKey, fdMinKey] := by
  constructor
  · refine ((sort_findings_by_timestamp_total [fdNoKey, fdMinKey]).1 ?_).1
    intro f hf
    rcases List.mem_cons.mp hf with rfl | hf
    · exact Or.inl rfl
    rcases List.mem_cons.mp hf with rfl | hf
    · exact Or.inr ⟨DATETIME_MIN_US, rfl⟩
    · exact absurd hf (List.not_mem_nil f)
  · exact (sort_findings_by_timestamp_total [fdNaiveKey, fdMinKey]).2 (by decide)

lemma filterMap_guard_map {α β γ : Type} (p : α → Prop) [DecidablePred p] (g : α → β)
    (d : β → γ) :
    ∀ l : List α,
      ((l.filterMap fun v => if p v then some (g v) else none).map d) =
        (l.filter fun v => decide (p v)).map fun v => d (g v) := by
  intro l
  induction l with
  | nil => rfl
  | cons a l ih =>
    by_cases hp : p a <;> simp [List.filterMap_cons, List.filter_cons, hp, ih]

lemma mem_filterMap_guard {α β : Type} {p : α → Prop} [DecidablePred p] {g : α → β}
    {l : List α} {b : β} (h : b ∈ l.filterMap fun v => if p v then some (g v) else none) :
    ∃ a ∈ l, p a ∧ g a = b := by
  rw [List.mem_filterMap] at h
  obtain ⟨a, ha, hsome⟩ := h
  by_cases hp : p a
  · rw [if_pos hp] at hsome
    exact ⟨a, ha, hp, Option.some_injective _ hsome⟩
  · rw [if_neg hp] at hsome
    cases hsome

/-- C8 (amended): when the RunMRU key's last-modified FILETIME converts and
falls inside the window, `parse_runmru` emits one Finding per value except the
literal `MRUList` index and values with empty data, in enumeration order; each
emitted description is the value data with all trailing backslash and `1`
characters removed (which strips the trailing `\1` MRU marker), and every
emitted Finding carries source `RunMRU`, artifact type `Command Line` and the
shared key timestamp. -/
theorem parse_runmru_spec (w : TriageWindow) (env : RunMRUEnv) (k : MRUKey) (km : ℤ)
    (hk : env.key = RegOpenResult.ok k)
    (hm : filetime_to_datetime (some k.last_modified) = some km)
    (hw : w.is_within_window (some ⟨km, true⟩) = true) :
    (parse_runmru w env).map (fun f => f.description) =
      (k.values.filter fun v => decide (v.1 ≠ "MRUList" ∧ v.2 ≠ "")).map
        (fun v => rstripChars ['\\', '1'] v.2) ∧
    ∀ f ∈ parse_runmru w env,
      f.source = "RunMRU" ∧ f.artifact_type = "Command Line" ∧ f.timestamp_dt = km := by
  have hun : parse_runmru w env =
      k.values.filterMap fun v =>
        if v.1 ≠ "MRUList" ∧ v.2 ≠ "" then
          some { timestamp := strftimeUTC km
                 timestamp_dt := km
                 artifact_type := "Command Line"
                 source := "RunMRU"
                 description := rstripChars ['\\', '1'] v.2
                 details := "Entry: " ++ v.1 }
        else none := by
    simp only [parse_runmru, hk, hm, hw, if_true]
  constructor
  · rw [hun]
    exact filterMap_guard_map _ _ _ k.values
  · intro f hf
    rw [hun] at hf
    obtain ⟨v, _, _, hg⟩ := mem_filterMap_guard hf
    rw [← hg]
    exact ⟨rfl, rfl, rfl⟩

/-- C8 counterexample: a RunMRU key inside the window carrying two
non-`MRUList` values, one with empty data and one whose data ends in a bare
digit 1, yields a single Finding whose description is `dir` — not one Finding
per non-`MRUList` value, and not the data with only a trailing `\1` marker
removed. -/
theorem parse_runmru_counterexample :
    parse_runmru wJan2024 envRunMRUEdge =
      [⟨"2024-01-01 00:00:00 UTC", 1704067200000000, "Command Line", "RunMRU", "dir",
        "Entry: b"⟩] ∧
    envRunMRUEdge.key =
      RegOpenResult.ok ⟨[("a", ""), ("b", "dir1"), ("MRUList", "ab")], 133485408000000000⟩ := by
  exact ⟨by decide, rfl⟩

/-- Witness for C8 at the specification's synthetic RunMRU key. -/
theorem parse_runmru_spec_witness :
    envRunMRUSpec.key =
      RegOpenResult.ok ⟨[("a", "C:\\tool.exe\\1"), ("MRUList", "a")], 133485408000000000⟩ ∧
    filetime_to_datetime (some 133485408000000000) = some 1704067200000000 ∧
    wJan2024.is_within_window (some ⟨1704067200000000, true⟩) = true ∧
    (parse_runmru wJan2024 envRunMRUSpec).map (fun f => f.description) =
      (([("a", "C:\\tool.exe\\1"), ("MRUList", "a")] : List (String × String)).filter
          fun v => decide (v.1 ≠ "MRUList" ∧ v.2 ≠ "")).map
        (fun v => rstripChars ['\\', '1'] v.2) ∧
    parse_runmru wJan2024 envRunMRUSpec =
      [⟨"2024-01-01 00:00:00 UTC", 1704067200000000, "Command Line", "RunMRU", "C:\\tool.exe",
        "Entry: a"⟩] := by
  refine ⟨rfl, by decide, by decide, ?_, by decide⟩
  exact (parse_runmru_spec wJan2024 envRunMRUSpec
    ⟨[("a", "C:\\tool.exe\\1"), ("MRUList", "a")], 133485408000000000⟩ 1704067200000000
    rfl (by decide) (by decide)).1

/-! Facts about the integer model of binary64 rounding. -/

lemma qdiv_decomp (a b : ℤ) (hb : 0 < b) :
    (a : ℚ) / b = ((a / b : ℤ) : ℚ) + ((a % b : ℤ) : ℚ) / b := by
  have hbne : ((b : ℤ) : ℚ) ≠ 0 := by
    exact_mod_cast hb.ne.symm
  have h : (a : ℚ) = (b : ℚ) * ((a / b : ℤ) : ℚ) + ((a % b : ℤ) : ℚ) := by
    exact_mod_cast congrArg (fun z : ℤ => (z : ℚ)) (Int.ediv_add_emod a b).symm
  rw [h]
  field_simp
  ring

lemma rheDiv_abs_le (a b : ℤ) (hb : 0 < b) :
    |(rheDiv a b : ℚ) - (a : ℚ) / b| ≤ 1 / 2 := by
  have hbq : (0 : ℚ) < (b : ℚ) := by exact_mod_cast hb
  have hdec := qdiv_decomp a b hb
  have hr0 : (0 : ℤ) ≤ a % b := Int.emod_nonneg a (ne_of_gt hb)
  have hrb : a % b < b := Int.emod_lt_of_pos a hb
  have hrq0 : (0 : ℚ) ≤ ((a % b : ℤ) : ℚ) / b :=
    div_nonneg (by exact_mod_cast hr0) hbq.le
  have hrq1 : ((a % b : ℤ) : ℚ) / b < 1 := by
    rw [div_lt_one hbq]
    exact_mod_cast hrb
  rw [rheDiv]
  split_ifs with h1 h2 h3
  · have hh : ((a % b : ℤ) : ℚ) / b ≤ 1 / 2 := by
      rw [div_le_div_iff hbq (by norm_num)]
      have : (((a % b) * 2 : ℤ) : ℚ) ≤ ((b : ℤ) : ℚ) := by
        exact_mod_cast (by omega : (a % b) * 2 ≤ b)
      push_cast at this ⊢
      linarith
    rw [hdec, abs_le]
    constructor <;> linarith
  · have hh : 1 / 2 ≤ ((a % b : ℤ) : ℚ) / b := by
      rw [div_le_div_iff (by norm_num) hbq]
      have : ((b : ℤ) : ℚ) ≤ (((a % b) * 2 : ℤ) : ℚ) := by
        exact_mod_cast (by omega : b ≤ (a % b) * 2)
      push_cast at this ⊢
      linarith
    rw [hdec, abs_le]
    push_cast
    constructor <;> linarith
  · have heq : ((a % b : ℤ) : ℚ) / b = 1 / 2 := by
      rw [div_eq_div_iff hbq.ne' (by norm_num : (2:ℚ) ≠ 0)]
      have : (((a % b) * 2 : ℤ) : ℚ) = ((b : ℤ) : ℚ) := by
        exact_mod_cast (by omega : (a % b) * 2 = b)
      push_cast at this ⊢
      linarith
    rw [hdec, heq, abs_le]
    constructor <;> linarith
  · have heq : ((a % b : ℤ) : ℚ) / b = 1 / 2 := by
      rw [div_eq_div_iff hbq.ne' (by norm_num : (2:ℚ) ≠ 0)]
      have : (((a % b) * 2 : ℤ) : ℚ) = ((b : ℤ) : ℚ) := by
        exact_mod_cast (by omega : (a % b) * 2 = b)
      push_cast at this ⊢
      linarith
    rw [hdec, heq, abs_le]
    push_cast
    constructor <;> linarith

lemma rheDiv_eq_of_near (a b n : ℤ) (hb : 0 < b)
    (h : |(a : ℚ) / b - (n : ℚ)| < 1 / 2) : rheDiv a b = n := by
  have hbq : (0 : ℚ) < (b : ℚ) := by exact_mod_cast hb
  have hdec := qdiv_decomp a b hb
  have hr0 : (0 : ℤ) ≤ a % b := Int.emod_nonneg a (ne_of_gt hb)
  have hrb : a % b < b := Int.emod_lt_of_pos a hb
  have hrq0 : (0 : ℚ) ≤ ((a % b : ℤ) : ℚ) / b :=
    div_nonneg (by exact_mod_cast hr0) hbq.le
  have hrq1 : ((a % b : ℤ) : ℚ) / b < 1 := by
    rw [div_lt_one hbq]
    exact_mod_cast hrb
  rw [hdec, abs_lt] at h
  obtain ⟨hlo, hhi⟩ := h
  rw [rheDiv]
  split_ifs with h1 h2 h3
  · have hh : ((a % b : ℤ) : ℚ) / b < 1 / 2 := by
      rw [div_lt_div_iff hbq (by norm_num)]
      have : (((a % b) * 2 : ℤ) : ℚ) < ((b : ℤ) : ℚ) := by
        exact_mod_cast (by omega : (a % b) * 2 < b)
      push_cast at this ⊢
      linarith
    have hqlt : ((a / b : ℤ) : ℚ) < (n : ℚ) + 1 := by linarith
    have hqgt : ((n : ℚ)) - 1 < ((a / b : ℤ) : ℚ) := by linarith
    have c1 : a / b < n + 1 := by exact_mod_cast hqlt
    have c2 : n - 1 < a / b := by exact_mod_cast hqgt
    omega
  · have hh : 1 / 2 < ((a % b : ℤ) : ℚ) / b := by
      rw [div_lt_div_iff (by norm_num) hbq]
      have : ((b : ℤ) : ℚ) < (((a % b) * 2 : ℤ) : ℚ) := by
        exact_mod_cast (by omega : b < (a % b) * 2)
      push_cast at this ⊢
      linarith
    have hqlt : ((a / b : ℤ) : ℚ) < (n : ℚ) := by linarith
    have hqgt : ((n : ℚ)) - 2 < ((a / b : ℤ) : ℚ) := by linarith
    have c1 : a / b < n := by exact_mod_cast hqlt
    have c2 : n - 2 < a / b := by exact_mod_cast hqgt
    omega
  · exfalso
    have heq : ((a % b : ℤ) : ℚ) / b = 1 / 2 := by
      rw [div_eq_div_iff hbq.ne' (by norm_num : (2:ℚ) ≠ 0)]
      have : (((a % b) * 2 : ℤ) : ℚ) = ((b : ℤ) : ℚ) := by
        exact_mod_cast (by omega : (a % b) * 2 = b)
      push_cast at this ⊢
      linarith
    rw [heq] at hlo hhi
    have c1 : a / b < n := by exact_mod_cast (by linarith : ((a / b : ℤ) : ℚ) < (n : ℚ))
    have c2 : n - 1 < a / b := by
      exact_mod_cast (by linarith : ((n : ℚ)) - 1 < ((a / b : ℤ) : ℚ))
    omega
  · exfalso
    have heq : ((a % b : ℤ) : ℚ) / b = 1 / 2 := by
      rw [div_eq_div_iff hbq.ne' (by norm_num : (2:ℚ) ≠ 0)]
      have : (((a % b) * 2 : ℤ) : ℚ) = ((b : ℤ) : ℚ) := by
        exact_mod_cast (by omega : (a % b) * 2 = b)
      push_cast at this ⊢
      linarith
    rw [heq] at hlo hhi
    have c1 : a / b < n := by exact_mod_cast (by linarith : ((a / b : ℤ) : ℚ) < (n : ℚ))
    have c2 : n - 1 < a / b := by
      exact_mod_cast (by linarith : ((n : ℚ)) - 1 < ((a / b : ℤ) : ℚ))
    omega

lemma log2fuel_bounds :
    ∀ fuel n : ℕ, n ≤ fuel → 1 ≤ n →
      2 ^ log2fuel fuel n ≤ n ∧ n < 2 ^ (log2fuel fuel n + 1) := by
  intro fuel
  induction fuel with
  | zero => intro n h1 h2; omega
  | succ fuel ih =>
    intro n hn h1
    rw [log2fuel]
    by_cases hsmall : n ≤ 1
    · rw [if_pos hsmall]
      constructor
      · simpa using h1
      · have : n = 1 := by omega
        simp [this]
    · rw [if_neg hsmall]
      obtain ⟨hl, hr⟩ := ih (n / 2) (by omega) (by omega)
      have e1 : 2 ^ (log2fuel fuel (n / 2) + 1) = 2 * 2 ^ log2fuel fuel (n / 2) := by
        rw [pow_succ]; ring
      have e2 : 2 ^ (log2fuel fuel (n / 2) + 1 + 1) = 2 * 2 ^ (log2fuel fuel (n / 2) + 1) := by
        rw [pow_succ]; ring
      constructor
      · rw [e1]; omega
      · rw [e2, e1]; omega

lemma nlog2_bounds (n : ℕ) (h : 1 ≤ n) :
    2 ^ nlog2 n ≤ n ∧ n < 2 ^ (nlog2 n + 1) :=
  log2fuel_bounds n n le_rfl h

lemma npow_cast_q (k : ℕ) : ((2 ^ k : ℕ) : ℚ) = (2 : ℚ) ^ ((k : ℕ) : ℤ) := by
  push_cast
  rw [zpow_natCast]

lemma zpow2_toNat (e : ℤ) (he : 0 ≤ e) :
    ((2 ^ e.toNat : ℤ) : ℚ) = (2 : ℚ) ^ e := by
  push_cast
  rw [← zpow_natCast (2 : ℚ) e.toNat, Int.toNat_of_nonneg he]

lemma zpow2lt_iff (a b e : ℤ) (hb : 0 < b) :
    zpow2lt a b e = true ↔ (a : ℚ) / b < (2 : ℚ) ^ e := by
  have hbq : (0 : ℚ) < (b : ℚ) := by exact_mod_cast hb
  rw [zpow2lt]
  by_cases he : 0 ≤ e
  · rw [if_pos he, decide_eq_true_eq, div_lt_iff hbq, ← zpow2_toNat e he]
    rw [show ((2 ^ e.toNat : ℤ) : ℚ) * (b : ℚ) = (((2 ^ e.toNat) * b : ℤ) : ℚ) by push_cast; ring]
    rw [Int.cast_lt, Int.mul_comm]
  · rw [if_neg he, decide_eq_true_eq]
    have hke : (0 : ℤ) ≤ -e := by omega
    have h2 : (2 : ℚ) ^ e = 1 / ((2 ^ (-e).toNat : ℤ) : ℚ) := by
      rw [zpow2_toNat (-e) hke, one_div, ← zpow_neg, neg_neg]
    have hcq : (0 : ℚ) < ((2 ^ (-e).toNat : ℤ) : ℚ) := by
      rw [zpow2_toNat (-e) hke]
      exact zpow_pos (by norm_num) _
    rw [h2, div_lt_div_iff hbq hcq]
    rw [show (a : ℚ) * ((2 ^ (-e).toNat : ℤ) : ℚ) = ((a * 2 ^ (-e).toNat : ℤ) : ℚ) by push_cast; ring]
    rw [one_mul, Int.cast_lt]

lemma binadeDiv_spec (a b : ℤ) (ha : 0 < a) (hb : 0 < b) :
    (2 : ℚ) ^ binadeDiv a b ≤ (a : ℚ) / b ∧ (a : ℚ) / b < (2 : ℚ) ^ (binadeDiv a b + 1) := by
  have hbq : (0 : ℚ) < (b : ℚ) := by exact_mod_cast hb
  obtain ⟨hla1, hla2⟩ := nlog2_bounds a.toNat (by omega)
  obtain ⟨hlb1, hlb2⟩ := nlog2_bounds b.toNat (by omega)
  set la := nlog2 a.toNat with hla
  set lb := nlog2 b.toNat with hlb
  have haq1 : (2 : ℚ) ^ ((la : ℤ)) ≤ (a : ℚ) := by
    have h1 : ((2 ^ la : ℕ) : ℤ) ≤ a := by
      have h := Int.ofNat_le.mpr hla1
      rwa [Int.toNat_of_nonneg ha.le] at h
    have h2 : ((2 ^ la : ℕ) : ℚ) ≤ (a : ℚ) := by exact_mod_cast h1
    rwa [npow_cast_q] at h2
  have haq2 : (a : ℚ) < (2 : ℚ) ^ ((la : ℤ) + 1) := by
    have h1 : a < ((2 ^ (la + 1) : ℕ) : ℤ) := by
      have h := Int.ofNat_lt.mpr hla2
      rwa [Int.toNat_of_nonneg ha.le] at h
    have h2 : (a : ℚ) < ((2 ^ (la + 1) : ℕ) : ℚ) := by exact_mod_cast h1
    rw [npow_cast_q] at h2
    have hexp : (((la + 1 : ℕ)) : ℤ) = (la : ℤ) + 1 := by push_cast; ring
    rwa [hexp] at h2
  have hbq1 : (2 : ℚ) ^ ((lb : ℤ)) ≤ (b : ℚ) := by
    have h1 : ((2 ^ lb : ℕ) : ℤ) ≤ b := by
      have h := Int.ofNat_le.mpr hlb1
      rwa [Int.toNat_of_nonneg hb.le] at h
    have h2 : ((2 ^ lb : ℕ) : ℚ) ≤ (b : ℚ) := by exact_mod_cast h1
    rwa [npow_cast_q] at h2
  have hbq2 : (b : ℚ) < (2 : ℚ) ^ ((lb : ℤ) + 1) := by
    have h1 : b < ((2 ^ (lb + 1) : ℕ) : ℤ) := by
      have h := Int.ofNat_lt.mpr hlb2
      rwa [Int.toNat_of_nonneg hb.le] at h
    have h2 : (b : ℚ) < ((2 ^ (lb + 1) : ℕ) : ℚ) := by exact_mod_cast h1
    rw [npow_cast_q] at h2
    have hexp : (((lb + 1 : ℕ)) : ℤ) = (lb : ℤ) + 1 := by push_cast; ring
    rwa [hexp] at h2
  have hup : (a : ℚ) / b < (2 : ℚ) ^ ((la : ℤ) - lb + 1) := by
    rw [div_lt_iff hbq]
    calc (a : ℚ) < (2 : ℚ) ^ ((la : ℤ) + 1) := haq2
      _ = (2 : ℚ) ^ ((la : ℤ) - lb + 1) * (2 : ℚ) ^ ((lb : ℤ)) := by
          rw [← zpow_add₀ (by norm_num : (2 : ℚ) ≠ 0)]
          congr 1
          ring
      _ ≤ (2 : ℚ) ^ ((la : ℤ) - lb + 1) * (b : ℚ) := by
          exact mul_le_mul_of_nonneg_left hbq1 (zpow_pos (by norm_num) _).le
  have hdown : (2 : ℚ) ^ ((la : ℤ) - lb - 1) < (a : ℚ) / b := by
    rw [lt_div_iff hbq]
    calc (2 : ℚ) ^ ((la : ℤ) - lb - 1) * (b : ℚ)
        < (2 : ℚ) ^ ((la : ℤ) - lb - 1) * (2 : ℚ) ^ ((lb : ℤ) + 1) := by
          exact mul_lt_mul_of_pos_left hbq2 (zpow_pos (by norm_num) _)
      _ = (2 : ℚ) ^ ((la : ℤ)) := by
          rw [← zpow_add₀ (by norm_num : (2 : ℚ) ≠ 0)]
          congr 1
          ring
      _ ≤ (a : ℚ) := haq1
  rw [binadeDiv]
  by_cases hc : zpow2lt a b ((nlog2 a.toNat : ℤ) - (nlog2 b.toNat : ℤ)) = true
  · rw [if_pos hc]
    have hlt := (zpow2lt_iff a b _ hb).mp hc
    constructor
    · have : ((la : ℤ) - lb - 1) = ((nlog2 a.toNat : ℤ) - (nlog2 b.toNat : ℤ)) - 1 := by
        rw [hla, hlb]
      exact le_of_lt (this ▸ hdown)
    · have : ((nlog2 a.toNat : ℤ) - (nlog2 b.toNat : ℤ)) - 1 + 1 =
          ((nlog2 a.toNat : ℤ) - (nlog2 b.toNat : ℤ)) := by ring
      rw [this]
      exact hlt
  · rw [if_neg hc]
    have hge : ¬((a : ℚ) / b < (2 : ℚ) ^ ((nlog2 a.toNat : ℤ) - (nlog2 b.toNat : ℤ))) :=
      fun hlt => hc ((zpow2lt_iff a b _ hb).mpr hlt)
    exact ⟨not_lt.mp hge, hup⟩

lemma binadeDiv_le_of_lt (a b : ℤ) (ha : 0 < a) (hb : 0 < b) (E : ℤ)
    (h : (a : ℚ) / b < (2 : ℚ) ^ (E + 1)) : binadeDiv a b ≤ E := by
  have h1 := (binadeDiv_spec a b ha hb).1
  have h2 : (2 : ℚ) ^ binadeDiv a b < (2 : ℚ) ^ (E + 1) := lt_of_le_of_lt h1 h
  have h3 := (zpow_lt_zpow_iff_right₀ (by norm_num : (1 : ℚ) < 2)).mp h2
  omega

lemma half_mul_zpow (e : ℤ) : 1 / 2 * (2 : ℚ) ^ e = (2 : ℚ) ^ (e - 1) := by
  have h : (1 : ℚ) / 2 = (2 : ℚ) ^ (-1 : ℤ) := by
    rw [zpow_neg, zpow_one]
    norm_num
  rw [h, ← zpow_add₀ (by norm_num : (2 : ℚ) ≠ 0)]
  congr 1
  ring

lemma divDouble_pos_eq (a b : ℤ) (ha : 0 < a) : divDouble a b = divDoublePos a b := by
  rw [divDouble, if_neg (by omega), if_neg (by omega)]

lemma divDoublePos_abs_le (a b : ℤ) (ha : 0 < a) (hb : 0 < b) :
    |((divDoublePos a b).1 : ℚ) * (2 : ℚ) ^ (divDoublePos a b).2 - (a : ℚ) / b| ≤
      (2 : ℚ) ^ (binadeDiv a b - 53) := by
  have hbq : (0 : ℚ) < (b : ℚ) := by exact_mod_cast hb
  by_cases hs : 0 ≤ 52 - binadeDiv a b
  · have hP : divDoublePos a b =
        (rheDiv (a * 2 ^ (52 - binadeDiv a b).toNat) b, binadeDiv a b - 52) := by
      simp only [divDoublePos]
      rw [if_pos hs]
    rw [hP]
    dsimp only
    set k := (52 - binadeDiv a b).toNat with hkdef
    have hkz : ((k : ℕ) : ℤ) = 52 - binadeDiv a b := Int.toNat_of_nonneg hs
    have h1 := rheDiv_abs_le (a * 2 ^ k) b hb
    have hx : ((a * 2 ^ k : ℤ) : ℚ) / b = (a : ℚ) / b * (2 : ℚ) ^ ((52 : ℤ) - binadeDiv a b) := by
      push_cast
      rw [← zpow_natCast (2 : ℚ) k, hkz]
      ring
    rw [hx] at h1
    have hmul : (2 : ℚ) ^ ((52 : ℤ) - binadeDiv a b) * (2 : ℚ) ^ (binadeDiv a b - 52) = 1 := by
      rw [← zpow_add₀ (by norm_num : (2 : ℚ) ≠ 0)]
      norm_num
    have hkey : (rheDiv (a * 2 ^ k) b : ℚ) * (2 : ℚ) ^ (binadeDiv a b - 52) - (a : ℚ) / b =
        ((rheDiv (a * 2 ^ k) b : ℚ) -
            (a : ℚ) / b * (2 : ℚ) ^ ((52 : ℤ) - binadeDiv a b)) *
          (2 : ℚ) ^ (binadeDiv a b - 52) := by
      rw [sub_mul, mul_assoc, hmul, mul_one]
    rw [hkey, abs_mul,
      abs_of_pos (zpow_pos (by norm_num : (0 : ℚ) < 2) (binadeDiv a b - 52))]
    calc |(rheDiv (a * 2 ^ k) b : ℚ) -
            (a : ℚ) / b * (2 : ℚ) ^ ((52 : ℤ) - binadeDiv a b)| *
          (2 : ℚ) ^ (binadeDiv a b - 52)
        ≤ 1 / 2 * (2 : ℚ) ^ (binadeDiv a b - 52) :=
          mul_le_mul_of_nonneg_right h1 (zpow_pos (by norm_num) _).le
      _ = (2 : ℚ) ^ (binadeDiv a b - 53) := by
          rw [half_mul_zpow]
          congr 1
          ring
  · have hs2 : (0 : ℤ) ≤ -(52 - binadeDiv a b) := by omega
    have hP : divDoublePos a b =
        (rheDiv a (b * 2 ^ (-(52 - binadeDiv a b)).toNat), binadeDiv a b - 52) := by
      simp only [divDoublePos]
      rw [if_neg hs]
    rw [hP]
    dsimp only
    set k := (-(52 - binadeDiv a b)).toNat with hkdef
    have hkz : ((k : ℕ) : ℤ) = binadeDiv a b - 52 := by
      rw [hkdef, Int.toNat_of_nonneg hs2]
      ring
    have hb2 : (0 : ℤ) < b * 2 ^ k := by positivity
    have h1 := rheDiv_abs_le a (b * 2 ^ k) hb2
    have hx : (a : ℚ) / ((b * 2 ^ k : ℤ) : ℚ) =
        (a : ℚ) / b * (2 : ℚ) ^ ((52 : ℤ) - binadeDiv a b) := by
      push_cast
      rw [← zpow_natCast (2 : ℚ) k, hkz]
      rw [div_mul_eq_div_div]
      rw [div_eq_mul_inv ((a : ℚ) / b), ← zpow_neg]
      congr 1
      ring
    rw [hx] at h1
    have hmul : (2 : ℚ) ^ ((52 : ℤ) - binadeDiv a b) * (2 : ℚ) ^ (binadeDiv a b - 52) = 1 := by
      rw [← zpow_add₀ (by norm_num : (2 : ℚ) ≠ 0)]
      norm_num
    have hkey : (rheDiv a (b * 2 ^ k) : ℚ) * (2 : ℚ) ^ (binadeDiv a b - 52) - (a : ℚ) / b =
        ((rheDiv a (b * 2 ^ k) : ℚ) -
            (a : ℚ) / b * (2 : ℚ) ^ ((52 : ℤ) - binadeDiv a b)) *
          (2 : ℚ) ^ (binadeDiv a b - 52) := by
      rw [sub_mul, mul_assoc, hmul, mul_one]
    rw [hkey, abs_mul,
      abs_of_pos (zpow_pos (by norm_num : (0 : ℚ) < 2) (binadeDiv a b - 52))]
    calc |(rheDiv a (b * 2 ^ k) : ℚ) -
            (a : ℚ) / b * (2 : ℚ) ^ ((52 : ℤ) - binadeDiv a b)| *
          (2 : ℚ) ^ (binadeDiv a b - 52)
        ≤ 1 / 2 * (2 : ℚ) ^ (binadeDiv a b - 52) :=
          mul_le_mul_of_nonneg_right h1 (zpow_pos (by norm_num) _).le
      _ = (2 : ℚ) ^ (binadeDiv a b - 53) := by
          rw [half_mul_zpow]
          congr 1
          ring

lemma usOfDoubleSeconds_cast_exact (me : ℤ × ℤ) (h : 0 ≤ me.2) :
    ((me.1 * 1000000 * 2 ^ me.2.toNat : ℤ) : ℚ) = (me.1 : ℚ) * (2 : ℚ) ^ me.2 * 1000000 := by
  push_cast
  rw [← zpow_natCast (2 : ℚ) me.2.toNat, Int.toNat_of_nonneg h]
  ring

lemma usOfDoubleSeconds_cast_div (me : ℤ × ℤ) (h : ¬0 ≤ me.2) :
    ((me.1 * 1000000 : ℤ) : ℚ) / ((2 ^ (-me.2).toNat : ℤ) : ℚ) =
      (me.1 : ℚ) * (2 : ℚ) ^ me.2 * 1000000 := by
  push_cast
  rw [← zpow_natCast (2 : ℚ) (-me.2).toNat, Int.toNat_of_nonneg (by omega : (0 : ℤ) ≤ -me.2)]
  rw [div_eq_mul_inv, ← zpow_neg, neg_neg]
  ring

lemma usOfDoubleSeconds_abs_le (me : ℤ × ℤ) :
    |(usOfDoubleSeconds me : ℚ) - (me.1 : ℚ) * (2 : ℚ) ^ me.2 * 1000000| ≤ 1 / 2 := by
  rw [usOfDoubleSeconds]
  by_cases h : 0 ≤ me.2
  · rw [if_pos h, usOfDoubleSeconds_cast_exact me h]
    simp
  · rw [if_neg h]
    have h1 := rheDiv_abs_le (me.1 * 1000000) (2 ^ (-me.2).toNat) (by positivity)
    rwa [usOfDoubleSeconds_cast_div me h] at h1

lemma usOfDoubleSeconds_eq_of_near (me : ℤ × ℤ) (n : ℤ)
    (h : |(me.1 : ℚ) * (2 : ℚ) ^ me.2 * 1000000 - (n : ℚ)| < 1 / 2) :
    usOfDoubleSeconds me = n := by
  rw [usOfDoubleSeconds]
  by_cases hp : 0 ≤ me.2
  · rw [if_pos hp]
    have hv := usOfDoubleSeconds_cast_exact me hp
    rw [← hv] at h
    have h2 : |((me.1 * 1000000 * 2 ^ me.2.toNat - n : ℤ) : ℚ)| < 1 / 2 := by
      push_cast
      push_cast at h
      exact h
    rw [← Int.cast_abs] at h2
    have h25 : ((|me.1 * 1000000 * 2 ^ me.2.toNat - n| : ℤ) : ℚ) < 1 :=
      lt_trans h2 (by norm_num)
    have h3 : |me.1 * 1000000 * 2 ^ me.2.toNat - n| < 1 := by exact_mod_cast h25
    rw [abs_lt] at h3
    omega
  · rw [if_neg hp]
    apply rheDiv_eq_of_near _ _ n (by positivity)
    rwa [usOfDoubleSeconds_cast_div me hp]

lemma usOfDouble_div_close (a b : ℤ) (ha : 0 < a) (hb : 0 < b) (E : ℤ)
    (hup : (a : ℚ) / b < (2 : ℚ) ^ (E + 1)) :
    |(usOfDoubleSeconds (divDouble a b) : ℚ) / 1000000 - (a : ℚ) / b| ≤
      (2 : ℚ) ^ (E - 53) + 1 / 2000000 := by
  rw [divDouble_pos_eq a b ha]
  have h1 := divDoublePos_abs_le a b ha hb
  have hE : binadeDiv a b ≤ E := binadeDiv_le_of_lt a b ha hb E hup
  have h1E : |((divDoublePos a b).1 : ℚ) * (2 : ℚ) ^ (divDoublePos a b).2 - (a : ℚ) / b| ≤
      (2 : ℚ) ^ (E - 53) :=
    le_trans h1 (zpow_le_zpow_right₀ (by norm_num : (1 : ℚ) ≤ 2) (by omega))
  have h2 := usOfDoubleSeconds_abs_le (divDoublePos a b)
  have h3 : |(usOfDoubleSeconds (divDoublePos a b) : ℚ) / 1000000 -
      ((divDoublePos a b).1 : ℚ) * (2 : ℚ) ^ (divDoublePos a b).2| ≤ 1 / 2000000 := by
    have hdiv : (usOfDoubleSeconds (divDoublePos a b) : ℚ) / 1000000 -
        ((divDoublePos a b).1 : ℚ) * (2 : ℚ) ^ (divDoublePos a b).2 =
        ((usOfDoubleSeconds (divDoublePos a b) : ℚ) -
          ((divDoublePos a b).1 : ℚ) * (2 : ℚ) ^ (divDoublePos a b).2 * 1000000) / 1000000 := by
      field_simp
      ring
    rw [hdiv, abs_div, abs_of_pos (by norm_num : (0 : ℚ) < 1000000)]
    rw [div_le_div_iff (by norm_num) (by norm_num)]
    calc |(usOfDoubleSeconds (divDoublePos a b) : ℚ) -
          ((divDoublePos a b).1 : ℚ) * (2 : ℚ) ^ (divDoublePos a b).2 * 1000000| * 2000000
        ≤ (1 / 2) * 2000000 := by
          exact mul_le_mul_of_nonneg_right h2 (by norm_num)
      _ = 1 * 1000000 := by norm_num
  calc |(usOfDoubleSeconds (divDoublePos a b) : ℚ) / 1000000 - (a : ℚ) / b|
      ≤ |(usOfDoubleSeconds (divDoublePos a b) : ℚ) / 1000000 -
          ((divDoublePos a b).1 : ℚ) * (2 : ℚ) ^ (divDoublePos a b).2| +
        |((divDoublePos a b).1 : ℚ) * (2 : ℚ) ^ (divDoublePos a b).2 - (a : ℚ) / b| :=
        abs_sub_le _ _ _
    _ ≤ 1 / 2000000 + (2 : ℚ) ^ (E - 53) := add_le_add h3 h1E
    _ = (2 : ℚ) ^ (E - 53) + 1 / 2000000 := by ring

lemma inDatetimeRange_true {us : ℤ} (h1 : DATETIME_MIN_US ≤ us) (h2 : us ≤ DATETIME_MAX_US) :
    inDatetimeRange us = true := by
  rw [inDatetimeRange, Bool.and_eq_true, decide_eq_true_eq, decide_eq_true_eq]
  exact ⟨h1, h2⟩

lemma zpow2_41 : (2 : ℚ) ^ ((40 : ℤ) + 1) = 2199023255552 := by
  rw [show ((40 : ℤ) + 1) = ((41 : ℕ) : ℤ) by norm_num, zpow_natCast]
  norm_num

lemma zpow2_33 : (2 : ℚ) ^ ((32 : ℤ) + 1) = 8589934592 := by
  rw [show ((32 : ℤ) + 1) = ((33 : ℕ) : ℤ) by norm_num, zpow_natCast]
  norm_num

lemma zpow2_neg13 : (2 : ℚ) ^ ((40 : ℤ) - 53) = 1 / 8192 := by
  rw [show ((40 : ℤ) - 53) = -((13 : ℕ) : ℤ) by norm_num, zpow_neg, zpow_natCast]
  norm_num

lemma zpow2_neg21 : (2 : ℚ) ^ ((32 : ℤ) - 53) = 1 / 2097152 := by
  rw [show ((32 : ℤ) - 53) = -((21 : ℕ) : ℤ) by norm_num, zpow_neg, zpow_natCast]
  norm_num

/-- C4 counterexample: the FILETIME tick count 1 (100 nanoseconds past the
1601 epoch) converts to exactly the 1601 epoch instant — the sub-microsecond
offset is rounded away — so the result is not exactly
`epoch(1601) + ticks/10^7` seconds. -/
theorem filetime_one_tick_counterexample :
    filetime_to_datetime (some 1) = some EPOCH_1601_US ∧
    ((EPOCH_1601_US : ℚ) - (EPOCH_1601_US : ℚ)) / 1000000 ≠ (1 : ℚ) / 10000000 := by
  constructor
  · decide
  · norm_num

/-- C4 (amended): `filetime_to_datetime` maps `None` and `0` to `None` (never
the 1601 epoch), maps an out-of-range 64-bit tick count to `None` instead of
raising, maps the tick count of 2024-01-01T00:00:00Z to exactly that UTC
instant, and maps every positive 64-bit tick count whose result is
representable to `epoch(1601) + ticks/10^7` seconds up to the rounding of the
float division and of the microsecond resolution — within one millisecond of
the exact value (the actual bound being about 123 microseconds). -/
theorem filetime_to_datetime_spec :
    filetime_to_datetime none = none ∧
    filetime_to_datetime (some 0) = none ∧
    filetime_to_datetime (some (2 ^ 64 - 1)) = none ∧
    filetime_to_datetime (some 133485408000000000) = some 1704067200000000 ∧
    ∀ ft : ℤ, 0 < ft → ft < 2 ^ 64 → ∀ us : ℤ,
      filetime_to_datetime (some ft) = some us →
      |((us : ℚ) - (EPOCH_1601_US : ℚ)) / 1000000 - (ft : ℚ) / 10000000| < 1 / 1000 := by
  refine ⟨rfl, by decide, by decide, by decide, fun ft h0 h1 us h => ?_⟩
  rw [filetime_to_datetime] at h
  rw [if_neg (by omega : ¬ft = 0)] at h
  by_cases hr : inDatetimeRange (EPOCH_1601_US + usOfDoubleSeconds (divDouble ft 10000000)) = true
  · rw [if_pos hr] at h
    have hus : EPOCH_1601_US + usOfDoubleSeconds (divDouble ft 10000000) = us :=
      Option.some.inj h
    have h1n : ft < 18446744073709551616 := by
      have h2 := h1
      norm_num at h2
      exact h2
    have hupper : (ft : ℚ) / 10000000 < (2 : ℚ) ^ ((40 : ℤ) + 1) := by
      rw [zpow2_41, div_lt_iff (by norm_num : (0 : ℚ) < 10000000)]
      have hfq : (ft : ℚ) < 18446744073709551616 := by exact_mod_cast h1n
      calc (ft : ℚ) < 18446744073709551616 := hfq
        _ ≤ 2199023255552 * 10000000 := by norm_num
    have hclose := usOfDouble_div_close ft 10000000 h0 (by norm_num) 40 hupper
    have heq : ((us : ℚ) - (EPOCH_1601_US : ℚ)) / 1000000 =
        (usOfDoubleSeconds (divDouble ft 10000000) : ℚ) / 1000000 := by
      rw [← hus]
      push_cast
      ring
    rw [heq]
    exact lt_of_le_of_lt hclose (by rw [zpow2_neg13]; norm_num)
  · rw [if_neg hr] at h
    cases h

/-- Witness for C4 at the 2024-01-01T00:00:00Z tick count. -/
theorem filetime_to_datetime_spec_witness :
    (0 : ℤ) < 133485408000000000 ∧ (133485408000000000 : ℤ) < 2 ^ 64 ∧
    filetime_to_datetime (some 133485408000000000) = some 1704067200000000 ∧
    |((1704067200000000 : ℚ) - (EPOCH_1601_US : ℚ)) / 1000000 -
        (133485408000000000 : ℚ) / 10000000| < 1 / 1000 := by
  refine ⟨by decide, by decide, by decide, ?_⟩
  exact filetime_to_datetime_spec.2.2.2.2 133485408000000000 (by decide) (by decide)
    1704067200000000 (by decide)

lemma firefox_exact (f : ℤ) (h0 : 0 ≤ f) (h1 : f < 8589934592000000) :
    firefox_time_to_datetime f = some f := by
  by_cases hz : f = 0
  · subst hz
    decide
  · have hpos : 0 < f := by omega
    have hupper : (f : ℚ) / 1000000 < (2 : ℚ) ^ ((32 : ℤ) + 1) := by
      rw [zpow2_33, div_lt_iff (by norm_num : (0 : ℚ) < 1000000)]
      have hfq : (f : ℚ) < 8589934592000000 := by exact_mod_cast h1
      calc (f : ℚ) < 8589934592000000 := hfq
        _ ≤ 8589934592 * 1000000 := by norm_num
    have hE : binadeDiv f 1000000 ≤ 32 :=
      binadeDiv_le_of_lt f 1000000 hpos (by norm_num) 32 hupper
    have hus : usOfDoubleSeconds (divDouble f 1000000) = f := by
      rw [divDouble_pos_eq f 1000000 hpos]
      apply usOfDoubleSeconds_eq_of_near
      have h1b := divDoublePos_abs_le f 1000000 hpos (by norm_num)
      have h1E : |((divDoublePos f 1000000).1 : ℚ) * (2 : ℚ) ^ (divDoublePos f 1000000).2 -
          (f : ℚ) / 1000000| ≤ (2 : ℚ) ^ ((32 : ℤ) - 53) :=
        le_trans h1b (zpow_le_zpow_right₀ (by norm_num : (1 : ℚ) ≤ 2) (by omega))
      have key : ((divDoublePos f 1000000).1 : ℚ) * (2 : ℚ) ^ (divDoublePos f 1000000).2 *
            1000000 - (f : ℚ) =
          (((divDoublePos f 1000000).1 : ℚ) * (2 : ℚ) ^ (divDoublePos f 1000000).2 -
            (f : ℚ) / 1000000) * 1000000 := by
        field_simp
      rw [key, abs_mul, abs_of_pos (by norm_num : (0 : ℚ) < 1000000)]
      calc |((divDoublePos f 1000000).1 : ℚ) * (2 : ℚ) ^ (divDoublePos f 1000000).2 -
            (f : ℚ) / 1000000| * 1000000
          ≤ (2 : ℚ) ^ ((32 : ℤ) - 53) * 1000000 :=
            mul_le_mul_of_nonneg_right h1E (by norm_num)
        _ < 1 / 2 := by rw [zpow2_neg21]; norm_num
    simp only [firefox_time_to_datetime]
    rw [hus, if_pos (inDatetimeRange_true (by rw [DATETIME_MIN_US]; omega)
      (by rw [DATETIME_MAX_US]; omega))]

/-- C5 counterexample: the Firefox-style and Chrome-style conversions of the
same wall-clock instant (Unix microsecond count 17179869184000001, around the
year 2514) disagree by one microsecond — the float seconds value rounds to a
granularity coarser than a microsecond there. -/
theorem browser_epoch_agreement_counterexample :
    firefox_time_to_datetime 17179869184000001 = some 17179869184000000 ∧
    chrome_time_to_datetime (17179869184000001 + 11644473600000000) = some 17179869184000001 ∧
    (17179869184000000 : ℤ) ≠ 17179869184000001 := by
  exact ⟨by decide, by decide, by decide⟩

/-- C5 (amended): the Chrome-style conversion maps 13300000000000000
microseconds since 1601 exactly to `epoch(1601)` plus that many microseconds,
the Firefox-style conversion maps 1700000000000000 microseconds since 1970
exactly to `epoch(1970)` plus that many microseconds, and for every pair of
Chrome-style and Firefox-style inputs denoting the same wall-clock instant at
a nonnegative Unix time below 2^33 seconds (through the year 2242) the two
converted results agree to the microsecond; beyond that the Firefox float
path can round more coarsely. -/
theorem browser_epoch_spec :
    chrome_time_to_datetime 13300000000000000 = some (EPOCH_1601_US + 13300000000000000) ∧
    firefox_time_to_datetime 1700000000000000 = some 1700000000000000 ∧
    ∀ f : ℤ, 0 ≤ f → f < 8589934592000000 →
      firefox_time_to_datetime f = some f ∧
      chrome_time_to_datetime (f + 11644473600000000) = some f := by
  refine ⟨by decide, by decide, fun f h0 h1 => ⟨firefox_exact f h0 h1, ?_⟩⟩
  simp only [chrome_time_to_datetime]
  have hsum : EPOCH_1601_US + (f + 11644473600000000) = f := by
    rw [EPOCH_1601_US]
    ring
  rw [hsum, if_pos (inDatetimeRange_true (by rw [DATETIME_MIN_US]; omega)
    (by rw [DATETIME_MAX_US]; omega))]

/-- Witness for C5 at the Firefox value 1700000000000000 and the Chrome value
denoting the same instant. -/
theorem browser_epoch_spec_witness :
    (0 : ℤ) ≤ 1700000000000000 ∧ (1700000000000000 : ℤ) < 8589934592000000 ∧
    (firefox_time_to_datetime 1700000000000000 = some 1700000000000000 ∧
      chrome_time_to_datetime (1700000000000000 + 11644473600000000) =
        some 1700000000000000) := by
  refine ⟨by decide, by decide, ?_⟩
  exact browser_epoch_spec.2.2 1700000000000000 (by decide) (by decide)

/-! Per-parser emission invariants. -/

lemma uaProcessValues_ok (w : TriageWindow) :
    ∀ vs : List (String × RegData), ∀ f ∈ (uaProcessValues w vs).1, emittedOk w f := by
  intro vs
  induction vs with
  | nil => intro f hf; simp [uaProcessValues] at hf
  | cons v rest ih =>
    intro f hf
    rcases v with ⟨name, data⟩
    cases data with
    | other => simp [uaProcessValues] at hf
    | bytes bs =>
      simp only [uaProcessValues] at hf
      by_cases hlen : 72 ≤ bs.length
      · rw [if_pos hlen] at hf
        cases hft : filetime_to_datetime (some (leUInt bs 60 8 : ℤ)) with
        | none =>
          rw [hft] at hf
          exact ih f hf
        | some dt =>
          rw [hft] at hf
          dsimp only at hf
          by_cases hw : w.is_within_window (some ⟨dt, true⟩) = true
          · rw [if_pos hw] at hf
            rcases List.mem_cons.mp hf with rfl | hf
            · exact ⟨rfl, hw⟩
            · exact ih f hf
          · rw [if_neg hw] at hf
            exact ih f hf
      · rw [if_neg hlen] at hf
        exact ih f hf

lemma parse_userassist_ok (w : TriageWindow) (env : UserAssistEnv) :
    ∀ f ∈ parse_userassist w env, emittedOk w f := by
  rw [parse_userassist]
  induction env.guidKeys with
  | nil => intro f hf; simp [uaProcessGuids] at hf
  | cons r rest ih =>
    intro f hf
    cases r with
    | notFound => exact ih f hf
    | permissionDenied => exact ih f hf
    | ok k =>
      simp only [uaProcessGuids] at hf
      by_cases hab : (uaProcessValues w k.values).2
      · rw [if_pos hab] at hf
        exact uaProcessValues_ok w k.values f hf
      · rw [if_neg hab] at hf
        rcases List.mem_append.mp hf with hf | hf
        · exact uaProcessValues_ok w k.values f hf
        · exact ih f hf

lemma parse_prefetch_ok (w : TriageWindow) (env : PrefetchEnv) :
    ∀ f ∈ parse_prefetch w env, emittedOk w f := by
  intro f hf
  rw [parse_prefetch] at hf
  by_cases hd : env.dirExists
  · rw [hd] at hf
    simp only [Bool.not_true, Bool.false_eq_true, if_false] at hf
    obtain ⟨pf, _, hg⟩ := List.mem_filterMap.mp hf
    by_cases hse : pf.statError
    · rw [if_pos hse] at hg
      cases hg
    · rw [if_neg hse] at hg
      by_cases hw : w.is_within_window (some ⟨pf.mtime, true⟩) = true
      · rw [if_pos hw] at hg
        obtain rfl := Option.some.inj hg
        exact ⟨rfl, hw⟩
      · rw [if_neg hw] at hg
        cases hg
  · simp only [Bool.not_eq_true] at hd
    rw [hd] at hf
    simp at hf

lemma parse_recent_files_ok (w : TriageWindow) (env : RecentFilesEnv) :
    ∀ f ∈ parse_recent_files w env, emittedOk w f := by
  intro f hf
  rw [parse_recent_files] at hf
  by_cases hap : pyFalsyStr env.appdata = true
  · rw [if_pos hap] at hf
    cases hf
  · rw [if_neg hap] at hf
    by_cases hd : env.dirExists
    · rw [hd] at hf
      simp only [Bool.not_true, Bool.false_eq_true, if_false] at hf
      obtain ⟨lnk, _, hg⟩ := List.mem_filterMap.mp hf
      by_cases hse : lnk.statError
      · rw [if_pos hse] at hg
        cases hg
      · rw [if_neg hse] at hg
        by_cases hw : w.is_within_window (some ⟨max lnk.mtime lnk.ctime, true⟩) = true
        · rw [if_pos hw] at hg
          obtain rfl := Option.some.inj hg
          exact ⟨rfl, hw⟩
        · rw [if_neg hw] at hg
          cases hg
    · simp only [Bool.not_eq_true] at hd
      rw [hd] at hf
      simp at hf

lemma usbProcessInstances_ok (w : TriageWindow) :
    ∀ insts : List USBInstanceEnv, ∀ f ∈ usbProcessInstances w insts, emittedOk w f := by
  intro insts
  induction insts with
  | nil => intro f hf; simp [usbProcessInstances] at hf
  | cons inst rest ih =>
    intro f hf
    simp only [usbProcessInstances] at hf
    by_cases hok : inst.openOk
    · rw [hok] at hf
      simp only [Bool.not_true, Bool.false_eq_true, if_false] at hf
      cases hit : get_device_install_time inst.install_prop with
      | none =>
        rw [hit] at hf
        exact ih f hf
      | some t =>
        rw [hit] at hf
        dsimp only at hf
        by_cases hw : w.is_within_window (some ⟨t, true⟩) = true
        · rw [if_pos hw] at hf
          rcases List.mem_cons.mp hf with rfl | hf
          · exact ⟨rfl, hw⟩
          · exact ih f hf
        · rw [if_neg hw] at hf
          exact ih f hf
    · simp only [Bool.not_eq_true] at hok
      rw [hok] at hf
      simp at hf

lemma usbProcessDevices_ok (w : TriageWindow) :
    ∀ ds : List USBDeviceEnv, ∀ f ∈ usbProcessDevices w ds, emittedOk w f := by
  intro ds
  induction ds with
  | nil => intro f hf; simp [usbProcessDevices] at hf
  | cons d rest ih =>
    intro f hf
    simp only [usbProcessDevices] at hf
    by_cases hok : d.openOk
    · rw [hok] at hf
      simp only [Bool.not_true, Bool.false_eq_true, if_false] at hf
      rcases List.mem_append.mp hf with hf | hf
      · exact usbProcessInstances_ok w d.instances f hf
      · exact ih f hf
    · simp only [Bool.not_eq_true] at hok
      rw [hok] at hf
      simp at hf

lemma parse_usb_devices_ok (w : TriageWindow) (env : USBEnv) :
    ∀ f ∈ parse_usb_devices w env, emittedOk w f := by
  intro f hf
  rw [parse_usb_devices] at hf
  cases henv : env.usbstor with
  | ok devices =>
    rw [henv] at hf
    exact usbProcessDevices_ok w devices f hf
  | notFound =>
    rw [henv] at hf
    cases hf
  | permissionDenied =>
    rw [henv] at hf
    cases hf

lemma parse_powershell_history_ok (w : TriageWindow) (env : PowershellEnv) :
    ∀ f ∈ parse_powershell_history w env, emittedOk w f := by
  intro f hf
  rw [parse_powershell_history] at hf
  by_cases hap : pyFalsyStr env.appdata = true
  · rw [if_pos hap] at hf
    cases hf
  · rw [if_neg hap] at hf
    by_cases he : env.fileExists
    · rw [he] at hf
      simp only [Bool.not_true, Bool.false_eq_true, if_false] at hf
      by_cases hst : env.statError = true
      · rw [if_pos hst] at hf
        cases hf
      · rw [if_neg hst] at hf
        by_cases hw : w.is_within_window (some ⟨env.mtime, true⟩) = true
        · rw [if_pos hw] at hf
          by_cases hop : env.openError = true
          · rw [if_pos hop] at hf
            cases hf
          · rw [if_neg hop] at hf
            split at hf
            · cases hf
            · rcases List.mem_cons.mp hf with rfl | hf
              · exact ⟨rfl, hw⟩
              · cases hf
        · rw [if_neg hw] at hf
          cases hf
    · simp only [Bool.not_eq_true] at he
      rw [he] at hf
      simp at hf

lemma parse_runmru_ok (w : TriageWindow) (env : RunMRUEnv) :
    ∀ f ∈ parse_runmru w env, emittedOk w f := by
  intro f hf
  rw [parse_runmru] at hf
  cases henv : env.key with
  | ok k =>
    rw [henv] at hf
    dsimp only at hf
    cases hm : filetime_to_datetime (some k.last_modified) with
    | none =>
      rw [hm] at hf
      simp at hf
    | some km =>
      rw [hm] at hf
      dsimp only at hf
      by_cases hw : w.is_within_window (some ⟨km, true⟩) = true
      · rw [if_pos hw] at hf
        obtain ⟨v, _, _, hg⟩ := mem_filterMap_guard hf
        rw [← hg]
        exact ⟨rfl, hw⟩
      · rw [if_neg hw] at hf
        simp at hf
  | notFound =>
    rw [henv] at hf
    simp at hf
  | permissionDenied =>
    rw [henv] at hf
    simp at hf

lemma parse_typed_paths_ok (w : TriageWindow) (env : TypedPathsEnv) :
    ∀ f ∈ parse_typed_paths w env, emittedOk w f := by
  intro f hf
  rw [parse_typed_paths] at hf
  cases henv : env.key with
  | ok k =>
    rw [henv] at hf
    dsimp only at hf
    cases hm : filetime_to_datetime (some k.last_modified) with
    | none =>
      rw [hm] at hf
      simp at hf
    | some km =>
      rw [hm] at hf
      dsimp only at hf
      by_cases hw : w.is_within_window (some ⟨km, true⟩) = true
      · rw [if_pos hw] at hf
        obtain ⟨v, _, _, hg⟩ := mem_filterMap_guard hf
        rw [← hg]
        exact ⟨rfl, hw⟩
      · rw [if_neg hw] at hf
        simp at hf
  | notFound =>
    rw [henv] at hf
    simp at hf
  | permissionDenied =>
    rw [henv] at hf
    simp at hf

lemma rdProcessValues_ok (w : TriageWindow) (km : ℤ)
    (hw : w.is_within_window (some ⟨km, true⟩) = true) (ext : String) :
    ∀ vs : List (String × RegData), ∀ f ∈ rdProcessValues km ext vs, emittedOk w f := by
  intro vs
  induction vs with
  | nil => intro f hf; simp [rdProcessValues] at hf
  | cons v rest ih =>
    intro f hf
    rcases v with ⟨name, data⟩
    cases data with
    | other =>
      simp only [rdProcessValues] at hf
      exact ih f hf
    | bytes bs =>
      simp only [rdProcessValues] at hf
      by_cases hn : name ≠ "MRUListEx"
      · rw [if_pos hn] at hf
        by_cases hne : rstripChars ['\x00'] (String.mk (utf16Decode (utf16Units bs))) ≠ ""
        · rw [if_pos hne] at hf
          rcases List.mem_cons.mp hf with rfl | hf
          · exact ⟨rfl, hw⟩
          · exact ih f hf
        · rw [if_neg hne] at hf
          exact ih f hf
      · rw [if_neg hn] at hf
        exact ih f hf

lemma rdProcessExts_ok (w : TriageWindow) (km : ℤ)
    (hw : w.is_within_window (some ⟨km, true⟩) = true) :
    ∀ es : List RDExt, ∀ f ∈ rdProcessExts km es, emittedOk w f := by
  intro es
  induction es with
  | nil => intro f hf; simp [rdProcessExts] at hf
  | cons e rest ih =>
    intro f hf
    simp only [rdProcessExts] at hf
    by_cases hok : e.openOk
    · rw [hok] at hf
      simp only [Bool.not_true, Bool.false_eq_true, if_false] at hf
      rcases List.mem_append.mp hf with hf | hf
      · exact rdProcessValues_ok w km hw e.extension e.values f hf
      · exact ih f hf
    · simp only [Bool.not_eq_true] at hok
      rw [hok] at hf
      simp at hf

lemma parse_recentdocs_ok (w : TriageWindow) (env : RecentDocsEnv) :
    ∀ f ∈ parse_recentdocs w env, emittedOk w f := by
  intro f hf
  rw [parse_recentdocs] at hf
  cases henv : env.key with
  | ok k =>
    rw [henv] at hf
    dsimp only at hf
    cases hm : filetime_to_datetime (some k.last_modified) with
    | none =>
      rw [hm] at hf
      simp at hf
    | some km =>
      rw [hm] at hf
      dsimp only at hf
      by_cases hw : w.is_within_window (some ⟨km, true⟩) = true
      · rw [if_pos hw] at hf
        exact rdProcessExts_ok w km hw k.exts f hf
      · rw [if_neg hw] at hf
        simp at hf
  | notFound =>
    rw [henv] at hf
    simp at hf
  | permissionDenied =>
    rw [henv] at hf
    simp at hf

lemma chromeProcessRows_ok (w : TriageWindow) (bn : String) :
    ∀ rows : List ChromeRow, ∀ f ∈ chromeProcessRows w bn rows, emittedOk w f := by
  intro rows
  induction rows with
  | nil => intro f hf; simp [chromeProcessRows] at hf
  | cons row rest ih =>
    intro f hf
    simp only [chromeProcessRows] at hf
    cases hc : chrome_time_to_datetime row.visit_time with
    | none =>
      rw [hc] at hf
      simp at hf
    | some dt =>
      rw [hc] at hf
      dsimp only at hf
      by_cases hw : w.is_within_window (some ⟨dt, true⟩) = true
      · rw [if_pos hw] at hf
        rcases List.mem_cons.mp hf with rfl | hf
        · exact ⟨rfl, hw⟩
        · exact ih f hf
      · rw [if_neg hw] at hf
        exact ih f hf

lemma chromeSection_ok (w : TriageWindow) (bn : String) (db : ChromeDB) :
    ∀ f ∈ chromeSection w bn db, emittedOk w f := by
  intro f hf
  rw [chromeSection] at hf
  by_cases hp : db.present
  · rw [hp] at hf
    simp only [Bool.not_true, Bool.false_eq_true, if_false] at hf
    by_cases ha : db.accessError = true
    · rw [if_pos ha] at hf
      cases hf
    · rw [if_neg ha] at hf
      exact chromeProcessRows_ok w bn db.rows f hf
  · simp only [Bool.not_eq_true] at hp
    rw [hp] at hf
    simp at hf

lemma firefoxProcessRows_ok (w : TriageWindow) :
    ∀ rows : List FirefoxRow, ∀ f ∈ firefoxProcessRows w rows, emittedOk w f := by
  intro rows
  induction rows with
  | nil => intro f hf; simp [firefoxProcessRows] at hf
  | cons row rest ih =>
    intro f hf
    simp only [firefoxProcessRows] at hf
    cases hc : firefox_time_to_datetime row.visit_date with
    | none =>
      rw [hc] at hf
      simp at hf
    | some dt =>
      rw [hc] at hf
      dsimp only at hf
      by_cases hw : w.is_within_window (some ⟨dt, true⟩) = true
      · rw [if_pos hw] at hf
        rcases List.mem_cons.mp hf with rfl | hf
        · exact ⟨rfl, hw⟩
        · exact ih f hf
      · rw [if_neg hw] at hf
        exact ih f hf

lemma firefoxSection_ok (w : TriageWindow) :
    ∀ ps : List FirefoxProfile, ∀ f ∈ firefoxSection w ps, emittedOk w f := by
  intro ps
  induction ps with
  | nil => intro f hf; simp [firefoxSection] at hf
  | cons p rest ih =>
    intro f hf
    simp only [firefoxSection] at hf
    by_cases hp : p.placesExists
    · rw [hp] at hf
      simp only [Bool.not_true, Bool.false_eq_true, if_false] at hf
      by_cases ha : p.accessError = true
      · rw [if_pos ha] at hf
        cases hf
      · rw [if_neg ha] at hf
        exact firefoxProcessRows_ok w p.rows f hf
    · simp only [Bool.not_eq_true] at hp
      rw [hp] at hf
      simp only [Bool.not_false, if_true] at hf
      exact ih f hf

lemma parse_browser_history_ok (w : TriageWindow) (env : BrowserHistoryEnv) :
    ∀ f ∈ parse_browser_history w env, emittedOk w f := by
  intro f hf
  rw [parse_browser_history] at hf
  by_cases hev : (pyFalsyStr env.localappdata || pyFalsyStr env.appdata) = true
  · rw [if_pos hev] at hf
    cases hf
  · rw [if_neg hev] at hf
    rcases List.mem_append.mp hf with hf | hf
    · rcases List.mem_append.mp hf with hf | hf
      · exact chromeSection_ok w "Chrome" env.chrome f hf
      · exact chromeSection_ok w "Edge" env.edge f hf
    · by_cases hd : env.profilesDirExists = true
      · rw [if_pos hd] at hf
        exact firefoxSection_ok w env.profiles f hf
      · rw [if_neg hd] at hf
        cases hf

lemma downloadsProcessRows_ok (w : TriageWindow) (bn : String) :
    ∀ rows : List DownloadRow, ∀ f ∈ downloadsProcessRows w bn rows, emittedOk w f := by
  intro rows
  induction rows with
  | nil => intro f hf; simp [downloadsProcessRows] at hf
  | cons row rest ih =>
    intro f hf
    simp only [downloadsProcessRows] at hf
    cases hc : chrome_time_to_datetime row.start_time with
    | none =>
      rw [hc] at hf
      simp at hf
    | some dt =>
      rw [hc] at hf
      dsimp only at hf
      by_cases hw : w.is_within_window (some ⟨dt, true⟩) = true
      · rw [if_pos hw] at hf
        rcases List.mem_cons.mp hf with rfl | hf
        · exact ⟨rfl, hw⟩
        · exact ih f hf
      · rw [if_neg hw] at hf
        exact ih f hf

lemma downloadsSection_ok (w : TriageWindow) (bn : String) (db : DownloadsDB) :
    ∀ f ∈ downloadsSection w bn db, emittedOk w f := by
  intro f hf
  rw [downloadsSection] at hf
  by_cases hp : db.present
  · rw [hp] at hf
    simp only [Bool.not_true, Bool.false_eq_true, if_false] at hf
    by_cases ha : db.accessError = true
    · rw [if_pos ha] at hf
      cases hf
    · rw [if_neg ha] at hf
      exact downloadsProcessRows_ok w bn db.rows f hf
  · simp only [Bool.not_eq_true] at hp
    rw [hp] at hf
    simp at hf

lemma parse_downloads_ok (w : TriageWindow) (env : DownloadsEnv) :
    ∀ f ∈ parse_downloads w env, emittedOk w f := by
  intro f hf
  rw [parse_downloads] at hf
  by_cases hev : pyFalsyStr env.localappdata = true
  · rw [if_pos hev] at hf
    cases hf
  · rw [if_neg hev] at hf
    rcases List.mem_append.mp hf with hf | hf
    · exact downloadsSection_ok w "Chrome" env.chrome f hf
    · exact downloadsSection_ok w "Edge" env.edge f hf

/-- C6: every parser filters before emitting — any Finding in any parser's
output carries a (non-null) timestamp satisfying the window predicate of the
window it was invoked with; a record whose timestamp resolves to null never
reaches the output. -/
theorem parsers_filter_before_emit :
    (∀ (w : TriageWindow) (env : UserAssistEnv), ∀ f ∈ parse_userassist w env,
      w.is_within_window (some ⟨f.timestamp_dt, true⟩) = true) ∧
    (∀ (w : TriageWindow) (env : PrefetchEnv), ∀ f ∈ parse_prefetch w env,
      w.is_within_window (some ⟨f.timestamp_dt, true⟩) = true) ∧
    (∀ (w : TriageWindow) (env : RecentFilesEnv), ∀ f ∈ parse_recent_files w env,
      w.is_within_window (some ⟨f.timestamp_dt, true⟩) = true) ∧
    (∀ (w : TriageWindow) (env : USBEnv), ∀ f ∈ parse_usb_devices w env,
      w.is_within_window (some ⟨f.timestamp_dt, true⟩) = true) ∧
    (∀ (w : TriageWindow) (env : PowershellEnv), ∀ f ∈ parse_powershell_history w env,
      w.is_within_window (some ⟨f.timestamp_dt, true⟩) = true) ∧
    (∀ (w : TriageWindow) (env : BrowserHistoryEnv), ∀ f ∈ parse_browser_history w env,
      w.is_within_window (some ⟨f.timestamp_dt, true⟩) = true) ∧
    (∀ (w : TriageWindow) (env : DownloadsEnv), ∀ f ∈ parse_downloads w env,
      w.is_within_window (some ⟨f.timestamp_dt, true⟩) = true) ∧
    (∀ (w : TriageWindow) (env : RecentDocsEnv), ∀ f ∈ parse_recentdocs w env,
      w.is_within_window (some ⟨f.timestamp_dt, true⟩) = true) ∧
    (∀ (w : TriageWindow) (env : TypedPathsEnv), ∀ f ∈ parse_typed_paths w env,
      w.is_within_window (some ⟨f.timestamp_dt, true⟩) = true) ∧
    (∀ (w : TriageWindow) (env : RunMRUEnv), ∀ f ∈ parse_runmru w env,
      w.is_within_window (some ⟨f.timestamp_dt, true⟩) = true) := by
  exact ⟨fun w env f hf => (parse_userassist_ok w env f hf).2,
    fun w env f hf => (parse_prefetch_ok w env f hf).2,
    fun w env f hf => (parse_recent_files_ok w env f hf).2,
    fun w env f hf => (parse_usb_devices_ok w env f hf).2,
    fun w env f hf => (parse_powershell_history_ok w env f hf).2,
    fun w env f hf => (parse_browser_history_ok w env f hf).2,
    fun w env f hf => (parse_downloads_ok w env f hf).2,
    fun w env f hf => (parse_recentdocs_ok w env f hf).2,
    fun w env f hf => (parse_typed_paths_ok w env f hf).2,
    fun w env f hf => (parse_runmru_ok w env f hf).2⟩

/-- Witness for C6: a TypedPaths key inside the window emits a finding whose
timestamp satisfies the window predicate. -/
theorem parsers_filter_before_emit_witness :
    fTypedPathsW ∈ parse_typed_paths wJan2024 envTypedPathsW ∧
    wJan2024.is_within_window (some ⟨fTypedPathsW.timestamp_dt, true⟩) = true := by
  refine ⟨by decide, ?_⟩
  exact parsers_filter_before_emit.2.2.2.2.2.2.2.2.1 wJan2024 envTypedPathsW fTypedPathsW
    (by decide)

/-- C9: every Finding emitted by every parser keeps its two timestamp fields
consistent — the `timestamp` string equals the `timestamp_dt` datetime
rendered as `%Y-%m-%d %H:%M:%S UTC` — so the reporting sinks may rely on it
without re-checking. -/
theorem findings_timestamp_string_consistent :
    (∀ (w : TriageWindow) (env : UserAssistEnv), ∀ f ∈ parse_userassist w env,
      f.timestamp = strftimeUTC f.timestamp_dt) ∧
    (∀ (w : TriageWindow) (env : PrefetchEnv), ∀ f ∈ parse_prefetch w env,
      f.timestamp = strftimeUTC f.timestamp_dt) ∧
    (∀ (w : TriageWindow) (env : RecentFilesEnv), ∀ f ∈ parse_recent_files w env,
      f.timestamp = strftimeUTC f.timestamp_dt) ∧
    (∀ (w : TriageWindow) (env : USBEnv), ∀ f ∈ parse_usb_devices w env,
      f.timestamp = strftimeUTC f.timestamp_dt) ∧
    (∀ (w : TriageWindow) (env : PowershellEnv), ∀ f ∈ parse_powershell_history w env,
      f.timestamp = strftimeUTC f.timestamp_dt) ∧
    (∀ (w : TriageWindow) (env : BrowserHistoryEnv), ∀ f ∈ parse_browser_history w env,
      f.timestamp = strftimeUTC f.timestamp_dt) ∧
    (∀ (w : TriageWindow) (env : DownloadsEnv), ∀ f ∈ parse_downloads w env,
      f.timestamp = strftimeUTC f.timestamp_dt) ∧
    (∀ (w : TriageWindow) (env : RecentDocsEnv), ∀ f ∈ parse_recentdocs w env,
      f.timestamp = strftimeUTC f.timestamp_dt) ∧
    (∀ (w : TriageWindow) (env : TypedPathsEnv), ∀ f ∈ parse_typed_paths w env,
      f.timestamp = strftimeUTC f.timestamp_dt) ∧
    (∀ (w : TriageWindow) (env : RunMRUEnv), ∀ f ∈ parse_runmru w env,
      f.timestamp = strftimeUTC f.timestamp_dt) := by
  exact ⟨fun w env f hf => (parse_userassist_ok w env f hf).1,
    fun w env f hf => (parse_prefetch_ok w env f hf).1,
    fun w env f hf => (parse_recent_files_ok w env f hf).1,
    fun w env f hf => (parse_usb_devices_ok w env f hf).1,
    fun w env f hf => (parse_powershell_history_ok w env f hf).1,
    fun w env f hf => (parse_browser_history_ok w env f hf).1,
    fun w env f hf => (parse_downloads_ok w env f hf).1,
    fun w env f hf => (parse_recentdocs_ok w env f hf).1,
    fun w env f hf => (parse_typed_paths_ok w env f hf).1,
    fun w env f hf => (parse_runmru_ok w env f hf).1⟩

/-- Witness for C9: the PowerShell history finding of a concrete state has
its string timestamp equal to its rendered datetime. -/
theorem findings_timestamp_string_consistent_witness :
    fPowershellW ∈ parse_powershell_history wJan2024 envPowershellW ∧
    fPowershellW.timestamp = strftimeUTC fPowershellW.timestamp_dt := by
  refine ⟨by decide, ?_⟩
  exact findings_timestamp_string_consistent.2.2.2.2.1 wJan2024 envPowershellW fPowershellW
    (by decide)

/-! Fail-closed helper lemmas. -/

lemma uaProcessValues_malformed (w : TriageWindow) :
    ∀ vs : List (String × RegData),
      (∀ v ∈ vs, v.2 = RegData.other ∨ ∃ bs, v.2 = RegData.bytes bs ∧ bs.length < 72) →
      (uaProcessValues w vs).1 = [] := by
  intro vs
  induction vs with
  | nil => intro _; rfl
  | cons v rest ih =>
    intro h
    rcases v with ⟨name, data⟩
    cases data with
    | other => rfl
    | bytes bs =>
      have hv := h (name, RegData.bytes bs) (List.mem_cons_self _ _)
      rcases hv with hv | ⟨bs2, hbs2, hlen⟩
      · cases hv
      · have hlen2 : bs.length < 72 := by
          have : bs = bs2 := by injection hbs2
          rw [this]
          exact hlen
        simp only [uaProcessValues]
        rw [if_neg (by omega)]
        exact ih (fun v hv => h v (List.mem_cons_of_mem _ hv))

lemma uaProcessGuids_denied (w : TriageWindow) :
    ∀ rs : List (RegOpenResult UAKey),
      (∀ r ∈ rs, r = RegOpenResult.notFound ∨ r = RegOpenResult.permissionDenied) →
      uaProcessGuids w rs = [] := by
  intro rs
  induction rs with
  | nil => intro _; rfl
  | cons r rest ih =>
    intro h
    have hr := h r (List.mem_cons_self _ _)
    have hrest := fun r2 hr2 => h r2 (List.mem_cons_of_mem _ hr2)
    rcases hr with rfl | rfl
    · exact ih hrest
    · exact ih hrest

lemma uaProcessGuids_malformed (w : TriageWindow) :
    ∀ rs : List (RegOpenResult UAKey),
      (∀ k : UAKey, RegOpenResult.ok k ∈ rs → ∀ v ∈ k.values,
        v.2 = RegData.other ∨ ∃ bs, v.2 = RegData.bytes bs ∧ bs.length < 72) →
      uaProcessGuids w rs = [] := by
  intro rs
  induction rs with
  | nil => intro _; rfl
  | cons r rest ih =>
    intro h
    have hrest : ∀ k : UAKey, RegOpenResult.ok k ∈ rest → ∀ v ∈ k.values,
        v.2 = RegData.other ∨ ∃ bs, v.2 = RegData.bytes bs ∧ bs.length < 72 :=
      fun k hk => h k (List.mem_cons_of_mem _ hk)
    cases r with
    | notFound => exact ih hrest
    | permissionDenied => exact ih hrest
    | ok k =>
      have hmal := uaProcessValues_malformed w k.values (h k (List.mem_cons_self _ _))
      simp only [uaProcessGuids, hmal]
      split
      · rfl
      · rw [ih hrest]
        rfl

lemma filterMap_none_of_all {α β : Type} {g : α → Option β} :
    ∀ l : List α, (∀ x ∈ l, g x = none) → l.filterMap g = [] := by
  intro l h
  rw [List.filterMap_eq_nil_iff]
  exact h

lemma usbProcessInstances_none (w : TriageWindow) :
    ∀ insts : List USBInstanceEnv,
      (∀ i ∈ insts, get_device_install_time i.install_prop = none) →
      usbProcessInstances w insts = [] := by
  intro insts
  induction insts with
  | nil => intro _; rfl
  | cons inst rest ih =>
    intro h
    have hrest := fun i hi => h i (List.mem_cons_of_mem _ hi)
    simp only [usbProcessInstances, h inst (List.mem_cons_self _ _)]
    split
    · rfl
    · exact ih hrest

lemma usbProcessDevices_none (w : TriageWindow) :
    ∀ ds : List USBDeviceEnv,
      (∀ d ∈ ds, ∀ i ∈ d.instances, get_device_install_time i.install_prop = none) →
      usbProcessDevices w ds = [] := by
  intro ds
  induction ds with
  | nil => intro _; rfl
  | cons d rest ih =>
    intro h
    have hrest := fun d2 hd2 => h d2 (List.mem_cons_of_mem _ hd2)
    simp only [usbProcessDevices]
    split
    · rfl
    · rw [usbProcessInstances_none w d.instances (h d (List.mem_cons_self _ _)), ih hrest]
      rfl

lemma rdProcessValues_malformed (km : ℤ) (ext : String) :
    ∀ vs : List (String × RegData),
      (∀ v ∈ vs, v.1 = "MRUListEx" ∨ v.2 = RegData.other ∨
        ∃ bs, v.2 = RegData.bytes bs ∧
          rstripChars ['\x00'] (String.mk (utf16Decode (utf16Units bs))) = "") →
      rdProcessValues km ext vs = [] := by
  intro vs
  induction vs with
  | nil => intro _; rfl
  | cons v rest ih =>
    intro h
    rcases v with ⟨name, data⟩
    have hv := h (name, data) (List.mem_cons_self _ _)
    have hrest := fun v2 hv2 => h v2 (List.mem_cons_of_mem _ hv2)
    cases data with
    | other =>
      simp only [rdProcessValues]
      exact ih hrest
    | bytes bs =>
      simp only [rdProcessValues]
      rcases hv with hname | hother | ⟨bs2, hbs2, hempty⟩
      · rw [if_neg (by simpa using hname)]
        exact ih hrest
      · cases hother
      · have hempty2 : rstripChars ['\x00'] (String.mk (utf16Decode (utf16Units bs))) = "" := by
          have : bs = bs2 := by injection hbs2
          rw [this]
          exact hempty
        by_cases hname : name ≠ "MRUListEx"
        · rw [if_pos hname, if_neg (by simp [hempty2])]
          exact ih hrest
        · rw [if_neg hname]
          exact ih hrest

lemma rdProcessExts_malformed (km : ℤ) :
    ∀ es : List RDExt,
      (∀ e ∈ es, ∀ v ∈ e.values, v.1 = "MRUListEx" ∨ v.2 = RegData.other ∨
        ∃ bs, v.2 = RegData.bytes bs ∧
          rstripChars ['\x00'] (String.mk (utf16Decode (utf16Units bs))) = "") →
      rdProcessExts km es = [] := by
  intro es
  induction es with
  | nil => intro _; rfl
  | cons e rest ih =>
    intro h
    have hrest := fun e2 he2 => h e2 (List.mem_cons_of_mem _ he2)
    simp only [rdProcessExts]
    split
    · rfl
    · rw [rdProcessValues_malformed km e.extension e.values (h e (List.mem_cons_self _ _)),
        ih hrest]
      rfl

lemma firefoxSection_fails (w : TriageWindow) :
    ∀ ps : List FirefoxProfile,
      (∀ p ∈ ps, p.placesExists = false ∨ p.accessError = true) →
      firefoxSection w ps = [] := by
  intro ps
  induction ps with
  | nil => intro _; rfl
  | cons p rest ih =>
    intro h
    have hp := h p (List.mem_cons_self _ _)
    have hrest := fun p2 hp2 => h p2 (List.mem_cons_of_mem _ hp2)
    simp only [firefoxSection]
    rcases hp with hp | hp
    · rw [hp]
      simp only [Bool.not_false, if_true]
      exact ih hrest
    · rw [hp]
      split
      · exact ih hrest
      · rfl

lemma chromeSection_fails (w : TriageWindow) (bn : String) (db : ChromeDB)
    (h : db.present = false ∨ db.accessError = true) : chromeSection w bn db = [] := by
  rw [chromeSection]
  rcases h with h | h
  · rw [h]
    rfl
  · rw [h]
    split
    · rfl
    · rfl

lemma downloadsSection_fails (w : TriageWindow) (bn : String) (db : DownloadsDB)
    (h : db.present = false ∨ db.accessError = true) : downloadsSection w bn db = [] := by
  rw [downloadsSection]
  rcases h with h | h
  · rw [h]
    rfl
  · rw [h]
    split
    · rfl
    · rfl

/-- C1 counterexample: a malformed-data condition that does NOT yield an
empty sequence — a Recent-folder shortcut whose content fails the `.lnk`
magic check, modified inside the window, still produces one Finding (with the
parse-failure placeholder in its details). -/
theorem recent_files_malformed_emits :
    parse_recent_files wJan2024 envRecentMalformed =
      [⟨"2024-01-01 00:00:00 UTC", 1704067200000000, "File Access", "Recent Folder",
        "evil.lnk", "Target: Invalid .lnk file"⟩] ∧
    parse_recent_files wJan2024 envRecentMalformed ≠ [] := by
  exact ⟨by decide, by decide⟩

/-- C1 (amended): every parser fails closed — returns an empty sequence,
never raising — on a missing environment path, a missing file or registry
key, permission denial, and (for the registry and binary parsers) data that is
entirely malformed or empty; the one exception is the Recent-files parser,
where a malformed shortcut file inside the window still yields a Finding
carrying a parse-failure placeholder target, the malformation affecting only
the details field. -/
theorem parsers_fail_closed :
    (∀ (w : TriageWindow) (env : UserAssistEnv),
      ((∀ r ∈ env.guidKeys, r = RegOpenResult.notFound ∨ r = RegOpenResult.permissionDenied) ∨
        (∀ k : UAKey, RegOpenResult.ok k ∈ env.guidKeys → ∀ v ∈ k.values,
          v.2 = RegData.other ∨ ∃ bs, v.2 = RegData.bytes bs ∧ bs.length < 72)) →
      parse_userassist w env = []) ∧
    (∀ (w : TriageWindow) (env : PrefetchEnv),
      (env.dirExists = false ∨ env.permissionAbortAfter = some 0 ∨
        (∀ e ∈ env.entries, e.statError = true)) →
      parse_prefetch w env = []) ∧
    (∀ (w : TriageWindow) (env : RecentFilesEnv),
      (pyFalsyStr env.appdata = true ∨ env.dirExists = false ∨
        (∀ e ∈ env.entries, e.statError = true)) →
      parse_recent_files w env = []) ∧
    (∀ (w : TriageWindow) (env : USBEnv),
      ((env.usbstor = RegOpenResult.notFound ∨ env.usbstor = RegOpenResult.permissionDenied) ∨
        (∀ ds : List USBDeviceEnv, env.usbstor = RegOpenResult.ok ds →
          ∀ d ∈ ds, ∀ i ∈ d.instances, get_device_install_time i.install_prop = none)) →
      parse_usb_devices w env = []) ∧
    (∀ (w : TriageWindow) (env : PowershellEnv),
      (pyFalsyStr env.appdata = true ∨ env.fileExists = false ∨ env.statError = true ∨
        env.openError = true ∨ (∀ l ∈ env.lines, pyBlank l = true)) →
      parse_powershell_history w env = []) ∧
    (∀ (w : TriageWindow) (env : BrowserHistoryEnv),
      ((pyFalsyStr env.localappdata || pyFalsyStr env.appdata) = true ∨
        ((env.chrome.present = false ∨ env.chrome.accessError = true) ∧
          (env.edge.present = false ∨ env.edge.accessError = true) ∧
          (env.profilesDirExists = false ∨
            ∀ p ∈ env.profiles, p.placesExists = false ∨ p.accessError = true))) →
      parse_browser_history w env = []) ∧
    (∀ (w : TriageWindow) (env : DownloadsEnv),
      (pyFalsyStr env.localappdata = true ∨
        ((env.chrome.present = false ∨ env.chrome.accessError = true) ∧
          (env.edge.present = false ∨ env.edge.accessError = true))) →
      parse_downloads w env = []) ∧
    (∀ (w : TriageWindow) (env : RecentDocsEnv),
      ((env.key = RegOpenResult.notFound ∨ env.key = RegOpenResult.permissionDenied) ∨
        (∀ k : RDKey, env.key = RegOpenResult.ok k →
          k.last_modified = 0 ∨
            ∀ e ∈ k.exts, ∀ v ∈ e.values, v.1 = "MRUListEx" ∨ v.2 = RegData.other ∨
              ∃ bs, v.2 = RegData.bytes bs ∧
                rstripChars ['\x00'] (String.mk (utf16Decode (utf16Units bs))) = "")) →
      parse_recentdocs w env = []) ∧
    (∀ (w : TriageWindow) (env : TypedPathsEnv),
      ((env.key = RegOpenResult.notFound ∨ env.key = RegOpenResult.permissionDenied) ∨
        (∀ k : MRUKey, env.key = RegOpenResult.ok k →
          k.last_modified = 0 ∨ ∀ v ∈ k.values, v.2 = "")) →
      parse_typed_paths w env = []) ∧
    (∀ (w : TriageWindow) (env : RunMRUEnv),
      ((env.key = RegOpenResult.notFound ∨ env.key = RegOpenResult.permissionDenied) ∨
        (∀ k : MRUKey, env.key = RegOpenResult.ok k →
          k.last_modified = 0 ∨ ∀ v ∈ k.values, v.2 = "")) →
      parse_runmru w env = []) := by
  refine ⟨?_, ?_, ?_, ?_, ?_, ?_, ?_, ?_, ?_, ?_⟩
  · intro w env h
    rw [parse_userassist]
    rcases h with h | h
    · exact uaProcessGuids_denied w env.guidKeys h
    · exact uaProcessGuids_malformed w env.guidKeys h
  · intro w env h
    rw [parse_prefetch]
    rcases h with h | h | h
    · rw [h]
      rfl
    · split
      · rfl
      · rw [h]
        simp only [List.take_zero]
        rfl
    · split
      · rfl
      · apply filterMap_none_of_all
        intro pf hpf
        have hmem : pf ∈ env.entries := by
          revert hpf
          split
          · intro hpf
            exact List.take_subset _ _ hpf
          · intro hpf
            exact hpf
        rw [if_pos (h pf hmem)]
  · intro w env h
    rw [parse_recent_files]
    rcases h with h | h | h
    · rw [if_pos h]
    · rw [h]
      split
      · rfl
      · rfl
    · split
      · rfl
      · split
        · rfl
        · apply filterMap_none_of_all
          intro lnk hlnk
          rw [if_pos (h lnk hlnk)]
  · intro w env h
    rw [parse_usb_devices]
    rcases h with h | h
    · rcases h with h | h <;> rw [h]
    · cases henv : env.usbstor with
      | ok ds => exact usbProcessDevices_none w ds (h ds henv)
      | notFound => rfl
      | permissionDenied => rfl
  · intro w env h
    rw [parse_powershell_history]
    by_cases hap : pyFalsyStr env.appdata = true
    · rw [if_pos hap]
    · rw [if_neg hap]
      rcases h with h | h | h | h | h
      · exact absurd h hap
      · rw [h]
        rfl
      · by_cases hfe : (!env.fileExists) = true
        · rw [if_pos hfe]
        · rw [if_neg hfe, if_pos h]
      · by_cases hfe : (!env.fileExists) = true
        · rw [if_pos hfe]
        · rw [if_neg hfe]
          by_cases hst : env.statError = true
          · rw [if_pos hst]
          · rw [if_neg hst]
            by_cases hw : w.is_within_window (some ⟨env.mtime, true⟩) = true
            · rw [if_pos hw, if_pos h]
            · rw [if_neg hw]
      · by_cases hfe : (!env.fileExists) = true
        · rw [if_pos hfe]
        · rw [if_neg hfe]
          by_cases hst : env.statError = true
          · rw [if_pos hst]
          · rw [if_neg hst]
            by_cases hw : w.is_within_window (some ⟨env.mtime, true⟩) = true
            · rw [if_pos hw]
              by_cases hop : env.openError = true
              · rw [if_pos hop]
              · rw [if_neg hop]
                have hfil : env.lines.filter (fun cmd => !pyBlank cmd) = [] := by
                  rw [List.filter_eq_nil_iff]
                  intro l hl
                  simp [h l hl]
                rw [hfil]
                rfl
            · rw [if_neg hw]
  · intro w env h
    rw [parse_browser_history]
    rcases h with h | ⟨hc, he, hff⟩
    · rw [if_pos h]
    · split
      · rfl
      · rw [chromeSection_fails w "Chrome" env.chrome hc,
          chromeSection_fails w "Edge" env.edge he]
        rcases hff with hff | hff
        · rw [hff]
          rfl
        · split
          · rw [firefoxSection_fails w env.profiles hff]
            rfl
          · rfl
  · intro w env h
    rw [parse_downloads]
    rcases h with h | ⟨hc, he⟩
    · rw [if_pos h]
    · split
      · rfl
      · rw [downloadsSection_fails w "Chrome" env.chrome hc,
          downloadsSection_fails w "Edge" env.edge he]
        rfl
  · intro w env h
    rw [parse_recentdocs]
    rcases h with h | h
    · rcases h with h | h <;> rw [h]
    · cases henv : env.key with
      | notFound => rfl
      | permissionDenied => rfl
      | ok k =>
        rcases h k henv with h0 | hmal
        · dsimp only
          rw [h0]
          rfl
        · cases hm : filetime_to_datetime (some k.last_modified) with
          | none =>
            dsimp only
            rw [hm]
          | some km =>
            dsimp only
            rw [hm]
            dsimp only
            split
            · exact rdProcessExts_malformed km k.exts hmal
            · rfl
  · intro w env h
    rw [parse_typed_paths]
    rcases h with h | h
    · rcases h with h | h <;> rw [h]
    · cases henv : env.key with
      | notFound => rfl
      | permissionDenied => rfl
      | ok k =>
        rcases h k henv with h0 | hempty
        · dsimp only
          rw [h0]
          rfl
        · cases hm : filetime_to_datetime (some k.last_modified) with
          | none =>
            dsimp only
            rw [hm]
          | some km =>
            dsimp only
            rw [hm]
            dsimp only
            split
            · apply filterMap_none_of_all
              intro v hv
              rw [if_neg (by simp [hempty v hv])]
            · rfl
  · intro w env h
    rw [parse_runmru]
    rcases h with h | h
    · rcases h with h | h <;> rw [h]
    · cases henv : env.key with
      | notFound => rfl
      | permissionDenied => rfl
      | ok k =>
        rcases h k henv with h0 | hempty
        · dsimp only
          rw [h0]
          rfl
        · cases hm : filetime_to_datetime (some k.last_modified) with
          | none =>
            dsimp only
            rw [hm]
          | some km =>
            dsimp only
            rw [hm]
            dsimp only
            split
            · apply filterMap_none_of_all
              intro v hv
              rw [if_neg (by simp [hempty v hv])]
            · rfl

/-- Witness for `parsers_fail_closed`: every conjunct applied at a concrete
failing environment (denied or missing keys, absent directories and files,
falsy environment variables, empty histories). -/
theorem parsers_fail_closed_witness :
    parse_userassist wJan2024 ⟨[RegOpenResult.notFound, RegOpenResult.permissionDenied]⟩ = [] ∧
    parse_prefetch wJan2024 ⟨false, [], none⟩ = [] ∧
    parse_recent_files wJan2024 ⟨none, true, []⟩ = [] ∧
    parse_usb_devices wJan2024 ⟨RegOpenResult.permissionDenied⟩ = [] ∧
    parse_powershell_history wJan2024 ⟨none, true, false, 0, false, []⟩ = [] ∧
    parse_browser_history wJan2024
      ⟨none, none, ⟨false, false, []⟩, ⟨false, false, []⟩, false, []⟩ = [] ∧
    parse_downloads wJan2024 ⟨none, ⟨false, false, []⟩, ⟨false, false, []⟩⟩ = [] ∧
    parse_recentdocs wJan2024 ⟨RegOpenResult.notFound⟩ = [] ∧
    parse_typed_paths wJan2024 ⟨RegOpenResult.notFound⟩ = [] ∧
    parse_runmru wJan2024 ⟨RegOpenResult.notFound⟩ = [] := by
  obtain ⟨h1, h2, h3, h4, h5, h6, h7, h8, h9, h10⟩ := parsers_fail_closed
  exact ⟨h1 _ _ (Or.inl (by decide)), h2 _ _ (Or.inl (by decide)),
    h3 _ _ (Or.inl (by decide)), h4 _ _ (Or.inl (Or.inr (by decide))),
    h5 _ _ (Or.inl (by decide)), h6 _ _ (Or.inl (by decide)),
    h7 _ _ (Or.inl (by decide)), h8 _ _ (Or.inl (Or.inl rfl)),
    h9 _ _ (Or.inl (Or.inl rfl)), h10 _ _ (Or.inl (Or.inl rfl))⟩

end TraceFinder
